import Mathlib

/-
Verification development for the plot-einstein-jobs repository.

The repository reads a BOINC "job log" text file into a task table
(plot_jobs.py, TaskDataFrame.setup_df), repairs missing report times by
linear interpolation, classifies each task record into projects by
pattern rules over the task name, extracts base search frequencies from
task names, computes per-project daily task counts, and drives a
checkbox-based plot selection controller (PlotTasks.manage_plots).

This file shallowly embeds those parts of the code:
  - numeric values (epoch seconds, frequencies) are modelled as rationals,
    so that the exact arithmetic of the source (whose float results are
    exact for the magnitudes involved) can be reasoned about;
  - pandas Series/DataFrame columns become Lean lists;
  - pattern matching (str.startswith, str.contains, str.extract with the
    concrete regexes of setup_df) is implemented directly over character
    lists with the same matching semantics (search at every position,
    greedy digit runs, lazy gap for the LATeah rule);
  - the matplotlib CheckButtons state plus PlotTasks.isplotted and the
    axes artists become an explicit PlotState record; manage_plots becomes
    a fuelled interpreter because CheckButtons.set_active synchronously
    re-enters manage_plots (eventson is True); running out of fuel is
    modelled like a raised exception (Python would raise RecursionError),
    i.e. the handler aborts and the state mutated so far is kept, which is
    exactly what tkinter does with an exception escaping a callback.
-/

namespace PlotJobs

/-! ## String and character primitives -/

/-- ASCII whitespace as matched by a Python regex `\s` on these inputs. -/
def isWsChar (c : Char) : Bool :=
  c == ' ' || c == '\t' || c == '\n' || c == '\r' || c == '\x0b' || c == '\x0c'

/-- List-of-characters version of str.startswith. -/
def listStartsWith : List Char → List Char → Bool
  | [], _ => true
  | _ :: _, [] => false
  | p :: ps, c :: cs => p == c && listStartsWith ps cs

/-- Remainder of `cs` after a literal `pat`, when `pat` leads `cs`. -/
def afterLit : List Char → List Char → Option (List Char)
  | [], cs => some cs
  | _ :: _, [] => none
  | p :: ps, c :: cs => if p == c then afterLit ps cs else none

/-- Does some suffix of `cs` satisfy `p`? (re.search tries every start.) -/
def scanAny (p : List Char → Bool) : List Char → Bool
  | [] => p []
  | c :: cs => p (c :: cs) || scanAny p cs

/-- Substring test, the semantics of pandas str.contains with a literal. -/
def containsSeq (pat : List Char) (cs : List Char) : Bool :=
  scanAny (fun s => listStartsWith pat s) cs

/-- First position where `f` extracts a value (re.search semantics). -/
def scanExtract (f : List Char → Option ℚ) : List Char → Option ℚ
  | [] => f []
  | c :: cs =>
    match f (c :: cs) with
    | some v => some v
    | none => scanExtract f cs

/-- Numeric value of a digit run. -/
def digitsToNat (ds : List Char) : ℕ :=
  ds.foldl (fun a c => a * 10 + (c.toNat - 48)) 0

/-- Value of a decimal literal with integer digits `d1` and fraction `d2`
(float parsing of the captured text; built with mkRat, the normalised
rational d1.d2). -/
def decVal (d1 d2 : List Char) : ℚ :=
  mkRat ((digitsToNat d1 * 10 ^ d2.length + digitsToNat d2 : ℕ) : ℤ) (10 ^ d2.length)

/-! ## Project classification rules (TaskDataFrame.setup_df)

The boolean membership columns are pure functions of the task name:
is_all     : numpy truthiness of the name string (non-empty),
is_gw      : startswith 'h1_',
is_gw_O2   : contains '_O2',
is_gw_O3   : contains '_O3',
is_fgrp    : startswith 'LATeah',
is_fgrp5   : contains regex LATeah\d{4}F,
is_fgrpG1  : contains regex LATeah\d{4}L|LATeah1049,
is_brp4    : startswith 'p'. -/

/-- Match of `LATeah` followed by four digits and `F` at the list head. -/
def fgrp5At (cs : List Char) : Bool :=
  match afterLit "LATeah".data cs with
  | none => false
  | some r =>
    match r with
    | d1 :: d2 :: d3 :: d4 :: f :: _ =>
      d1.isDigit && d2.isDigit && d3.isDigit && d4.isDigit && f == 'F'
    | _ => false

/-- Match of `LATeah` followed by four digits and `L` at the list head. -/
def fgrpG1At (cs : List Char) : Bool :=
  match afterLit "LATeah".data cs with
  | none => false
  | some r =>
    match r with
    | d1 :: d2 :: d3 :: d4 :: f :: _ =>
      d1.isDigit && d2.isDigit && d3.isDigit && d4.isDigit && f == 'L'
    | _ => false

def is_all_name (s : String) : Bool := s != ""

def is_gw_name (s : String) : Bool := listStartsWith "h1_".data s.data

def is_gw_O2_name (s : String) : Bool := containsSeq "_O2".data s.data

def is_gw_O3_name (s : String) : Bool := containsSeq "_O3".data s.data

def is_fgrp_name (s : String) : Bool := listStartsWith "LATeah".data s.data

def is_fgrp5_name (s : String) : Bool := scanAny fgrp5At s.data

def is_fgrpG1_name (s : String) : Bool :=
  scanAny fgrpG1At s.data || containsSeq "LATeah1049".data s.data

def is_brp4_name (s : String) : Bool := listStartsWith "p".data s.data

/-! ## Frequency extraction (TaskDataFrame.setup_df)

gw_freq uses pattern h1_(\d+\.\d+)_? : after a literal 'h1_' capture a
greedy digit run, a dot and a second greedy digit run (the optional
trailing underscore does not affect the capture).
fgrpG1_freq uses pattern LATeah.*?_(\d+) : after a literal 'LATeah', a
lazy gap up to the first underscore that is followed by a digit, then a
greedy digit capture; the resulting column is then masked by is_fgrpG1
(`.where(self.tasks_df.is_fgrpG1)`), which forces the value to missing
for every record that is not an fgrpG1 member. -/

/-- Attempt of the gw pattern at the head of `cs`. -/
def gwFreqAt (cs : List Char) : Option ℚ :=
  match afterLit "h1_".data cs with
  | none => none
  | some r =>
    let s1 := r.span Char.isDigit
    if s1.1.isEmpty then none
    else
      match s1.2 with
      | '.' :: r2 =>
        let s2 := r2.span Char.isDigit
        if s2.1.isEmpty then none else some (decVal s1.1 s2.1)
      | _ => none

def gw_freq (s : String) : Option ℚ := scanExtract gwFreqAt s.data

/-- Lazy search for the first underscore followed by a digit; capture the
digit run after it. -/
def firstUnderscoreDigits : List Char → Option ℚ
  | [] => none
  | c :: rest =>
    if c == '_' then
      let s := rest.span Char.isDigit
      if s.1.isEmpty then firstUnderscoreDigits rest
      else some ((digitsToNat s.1 : ℚ))
    else firstUnderscoreDigits rest

/-- Attempt of the fgrpG1 pattern at the head of `cs`. -/
def fgrpG1FreqAt (cs : List Char) : Option ℚ :=
  match afterLit "LATeah".data cs with
  | none => none
  | some r => firstUnderscoreDigits r

/-- Extraction by the fgrpG1 rule including the restriction of the column
to fgrpG1 members (the `.where(self.tasks_df.is_fgrpG1)` mask). -/
def fgrpG1_freq (s : String) : Option ℚ :=
  if is_fgrpG1_name s then scanExtract fgrpG1FreqAt s.data else none

/-! ## Task records and the missing-time repair

setup_df keeps three raw columns per record (time_stamp, task_name,
task_t) and runs `self.tasks_df.time_stamp.interpolate(inplace=True)`,
pandas linear interpolation in row order with the default forward limit
direction: interior gaps are interpolated between the surrounding valid
values, values after the last valid one repeat it, and values before the
first valid one stay missing. The task_t column is not interpolated
(the code comments: "Assumes read_table of job_log file will produce NaN
ONLY for timestamp."). -/

structure JobRow where
  time_stamp : Option ℚ
  task_name : String
  task_t : Option ℚ
deriving DecidableEq, Repr

/-- Valid (index, value) entries of a column. -/
def validEntries (col : List (Option ℚ)) : List (ℕ × ℚ) :=
  col.enum.filterMap (fun p => p.2.map (fun v => (p.1, v)))

/-- Last valid entry strictly before index `i`. -/
def lastValidBefore (col : List (Option ℚ)) (i : ℕ) : Option (ℕ × ℚ) :=
  (validEntries (col.take i)).getLast?

/-- First valid entry strictly after index `i`. -/
def firstValidAfter (col : List (Option ℚ)) (i : ℕ) : Option (ℕ × ℚ) :=
  ((validEntries (col.drop (i + 1))).head?).map (fun p => (i + 1 + p.1, p.2))

/-- One interpolated cell of pandas Series.interpolate (method linear,
limit_direction forward). -/
def interpAt (col : List (Option ℚ)) (i : ℕ) : Option ℚ :=
  match col.get? i with
  | none => none
  | some (some v) => some v
  | some none =>
    match lastValidBefore col i with
    | none => none
    | some jv =>
      match firstValidAfter col i with
      | none => some jv.2
      | some kv =>
        some (jv.2 + (kv.2 - jv.2) * ((i : ℚ) - (jv.1 : ℚ)) / ((kv.1 : ℚ) - (jv.1 : ℚ)))

/-- Whole-column pandas linear interpolation. -/
def interpolateLinear (col : List (Option ℚ)) : List (Option ℚ) :=
  (List.range col.length).map (interpAt col)

/-- The load-time repair: only the time_stamp column is interpolated. -/
def repairTimeStamps (rows : List JobRow) : List JobRow :=
  (rows.zip (interpolateLinear (rows.map (fun r => r.time_stamp)))).map
    (fun p => { p.1 with time_stamp := p.2 })

/-! ## Daily counts (TaskDataFrame.setup_df, daily_counts dict)

For a project P the code computes
  tasks_df.time_stamp.groupby(tasks_df.time_stamp.dt.floor('D')
          .where(tasks_df[is_P])).transform('count').
The group key of a row is its report day (floor to a day boundary) when
the row is a P member, and missing otherwise (a missing time stamp also
gives a missing key since flooring NaT is NaT); groupby drops missing
keys, and transform('count') counts the non-missing time stamps of the
row's group, yielding a missing count for rows with a missing key. -/

/-- Group key of one row for the `<P>_Dcnt` computation. -/
def dcntKey (isP : String → Bool) (r : JobRow) : Option ℤ :=
  r.time_stamp.bind (fun t => if isP r.task_name then some ⌊t / 86400⌋ else none)

/-- The `<P>_Dcnt` value attached to row `i`. -/
def dcnt (rows : List JobRow) (isP : String → Bool) (i : ℕ) : Option ℕ :=
  (rows.get? i).bind (fun r =>
    (dcntKey isP r).map (fun d =>
      rows.countP (fun x => (dcntKey isP x == some d) && x.time_stamp.isSome)))

/-! ## Summary statistics (TaskDataFrame.count_log_projects)

For each reported project: proj_totals appends tasks_df[is_P].sum();
proj_days appends the number of groups of tasks_df[P_Dcnt] grouped by
tasks_df.time_stamp.dt.date.where(tasks_df[P_Dcnt].notnull()); and
proj_daily_means appends round(total / days, 1) when the total is not
zero, else 0. Python round uses round-half-to-even. -/

def projTotal (rows : List JobRow) (isP : String → Bool) : ℕ :=
  (rows.map (fun r => if isP r.task_name then 1 else 0)).sum

def projDays (rows : List JobRow) (isP : String → Bool) : ℕ :=
  ((rows.enum.filterMap (fun p =>
      if (dcnt rows isP p.1).isSome then p.2.time_stamp.map (fun t => ⌊t / 86400⌋)
      else none)).dedup).length

def roundHalfEven (x : ℚ) : ℤ :=
  if x - ⌊x⌋ < 1 / 2 then ⌊x⌋
  else if 1 / 2 < x - ⌊x⌋ then ⌊x⌋ + 1
  else if 2 ∣ ⌊x⌋ then ⌊x⌋ else ⌊x⌋ + 1

/-- Python round(x, 1). -/
def round1 (x : ℚ) : ℚ := (roundHalfEven (x * 10) : ℚ) / 10

def projDailyMean (rows : List JobRow) (isP : String → Bool) : ℚ :=
  if projTotal rows isP ≠ 0 then
    round1 ((projTotal rows isP : ℚ) / (projDays rows isP : ℚ))
  else 0

/-- Number of distinct report days among the project's member records
(the claim's formulation of days_observed). -/
def matchingDays (rows : List JobRow) (isP : String → Bool) : ℕ :=
  ((rows.filterMap (fun r =>
      if isP r.task_name then r.time_stamp.map (fun t => ⌊t / 86400⌋)
      else none)).dedup).length

/-! ## First-line validation (plot_utils/path_check.py, validate_datafile)

The code runs re.match(r'\d{10}\s', file.readline(11)) on the data file
and exits with a message naming the file when there is no match.
readline(11) returns at most 11 characters of the first line (stopping
after a newline). -/

/-- Python file.readline(n): up to `n` characters, stopping after a
newline (the newline is included). -/
def readLineUpTo : ℕ → List Char → List Char
  | 0, _ => []
  | _ + 1, [] => []
  | n + 1, c :: cs => if c == '\n' then [c] else c :: readLineUpTo n cs

/-- Match of the regex `\d{k}\s` anchored at the start. -/
def matchDW : ℕ → List Char → Bool
  | 0, [] => false
  | 0, c :: _ => isWsChar c
  | _ + 1, [] => false
  | k + 1, c :: cs => c.isDigit && matchDW k cs

/-- The fatal message of validate_datafile; it names the bad file. -/
def badFileMsg (filepath : String) : String :=
  "*** Sorry, but the job log file " ++ filepath ++
    " does not contain usable data. *** The first line should start with a" ++
    " BOINC reporting timestamp of 10 digits (Epoch seconds)."

/-- validate_datafile: sys.exit (modelled as an error value carrying the
message) unless the first line starts with ten digits and a whitespace. -/
def validate_datafile (filepath : String) (content : List Char) : Except String Unit :=
  if matchDW 10 (readLineUpTo 11 content) then Except.ok ()
  else Except.error (badFileMsg filepath)

/-- The claim's wording: the file's first line begins with exactly ten
ASCII digits followed by a whitespace character. (Written from the spec
sentence, to be compared with validate_datafile.) -/
def firstLine10DigitsWs (content : List Char) : Bool :=
  ((content.take 10).length == 10) && (content.take 10).all Char.isDigit &&
    (match content.get? 10 with
     | some c => isWsChar c
     | none => false)

/-! ## The range slider (PlotTasks.setup_slider)

When max_f is NaN (modelled as none: the only NaN source here is the
max() of an all-missing frequency column) the slider limits become
(0, 1); otherwise the upper limit is max_f plus a 2% margin. The
RangeSlider is created with valmin 0 and valmax max_limit. -/

def setup_slider (max_f : Option ℚ) : ℚ × ℚ :=
  match max_f with
  | none => (0, 1)
  | some f => (0, f + f * (2 / 100))

/-! ## The plot selection controller (PlotTasks.manage_plots)

Labels are the checkbox label strings. The state holds the CheckButtons
status (checked), the isplotted dict, the do_replot instance flag and an
abstraction of the axes artists (canvas: the list of series plotted since
the last reset, in drawing order; reset_plots clears the axes, replots
the two invisible placeholder lines and sets every isplotted entry to
False).

Group constants are from plot_utils/project_groups.py. plot_proj is the
label-to-plot-function dict of PlotTasks.__init__: its keys are
all, fgrpG1, fgrp5, gw_O3, gw_O2, gw_series, brp4, gw_O3_freq and
fgrpG1_freq; a lookup of any other label (in particular brp7, which is in
ALL_INCLUSIVE) raises KeyError. Raised exceptions are the Bool component
of a step result: tkinter catches an exception escaping the callback, so
the state mutated so far is kept and the rest of the handler is skipped.

CheckButtons.set_active toggles the box and, since eventson is True,
synchronously re-enters manage_plots; the interpreter carries fuel for
this re-entrancy, and exhausted fuel is modelled as an exception (Python:
RecursionError). -/

def CHKBOX_LABELS : List String :=
  ["all", "fgrp5", "fgrpG1", "fgrp_hz", "gw_O3", "gw_O2", "gw_series",
   "brp4", "brp7", "grG1hz_X_t", "gwO3hz_X_t"]

def EXCLUSIVE_PLOTS : List String :=
  ["all", "fgrp_hz", "grG1hz_X_t", "gwO3hz_X_t"]

def ALL_EXCLUDED : List String :=
  ["all", "fgrp_hz", "grG1hz_X_t", "gwO3hz_X_t", "gw_series"]

def GW_SERIES_EXCLUDED : List String :=
  ["all", "fgrp_hz", "grG1hz_X_t", "gwO3hz_X_t", "gw_O2", "gw_O3"]

def ALL_INCLUSIVE : List String :=
  ["fgrp5", "fgrpG1", "gw_O3", "gw_O2", "brp4", "brp7"]

def GW_SERIES_INCLUSIVE : List String :=
  ["fgrp5", "fgrpG1", "brp4", "gw_series"]

structure PlotState where
  checked : String → Bool
  isplotted : String → Bool
  do_replot : Bool
  canvas : List String

def setFlag (f : String → Bool) (l : String) (b : Bool) : String → Bool :=
  fun x => if x = l then b else f x

/-- reset_plots: clear both axes (canvas) and set every isplotted entry
to False. -/
def reset_plots (σ : PlotState) : PlotState :=
  { σ with canvas := [], isplotted := fun _ => false }

/-- One plot_<proj> method: draw the series and mark it plotted. -/
def plotSeries (l : String) (σ : PlotState) : PlotState :=
  { σ with canvas := σ.canvas ++ [l], isplotted := setFlag σ.isplotted l true }

/-- The plot_proj dict restricted to checkbox labels; none = KeyError. -/
def plot_proj (l : String) : Option (PlotState → PlotState) :=
  if l = "all" then some (plotSeries "all")
  else if l = "fgrpG1" then some (plotSeries "fgrpG1")
  else if l = "fgrp5" then some (plotSeries "fgrp5")
  else if l = "gw_O3" then some (plotSeries "gw_O3")
  else if l = "gw_O2" then some (plotSeries "gw_O2")
  else if l = "gw_series" then some (plotSeries "gw_series")
  else if l = "brp4" then some (plotSeries "brp4")
  else if l = "gw_O3_freq" then some (plotSeries "gw_O3_freq")
  else if l = "fgrpG1_freq" then some (plotSeries "fgrpG1_freq")
  else none

/-- self.plot_proj[p]() with KeyError as the raised flag. -/
def callPlot (p : String) (σ : PlotState) : PlotState × Bool :=
  match plot_proj p with
  | some f => (f σ, false)
  | none => (σ, true)

def seqOk (r : PlotState × Bool) (f : PlotState → PlotState × Bool) : PlotState × Bool :=
  if r.2 then r else f r.1

def seqMap (r : PlotState × Bool) (f : PlotState → PlotState) : PlotState × Bool :=
  if r.2 then r else (f r.1, false)

/-- checkbox.set_active toggles the stored checkbox status. -/
def toggleChecked (σ : PlotState) (l : String) : PlotState :=
  { σ with checked := setFlag σ.checked l (!(σ.checked l)) }

/-- Clear the canvas and do_replot, as `if self.do_replot:
self.reset_plots(); self.do_replot = False`. -/
def resetIfReplot (σ : PlotState) : PlotState :=
  if σ.do_replot then { (reset_plots σ) with do_replot := false } else σ

/-- Body of the 'all' branch loop (lines 1117-1123): uncheck every other
label that is plotted or checked, via set_active (which re-enters the
handler through `recur`), then flag do_replot. -/
def stepA (recur : PlotState → String → PlotState × Bool) (clicked : String)
    (acc : (String → Bool) × (PlotState × Bool)) (lab : String) :
    (String → Bool) × (PlotState × Bool) :=
  if acc.2.2 then acc
  else
    let sn := acc.1
    let σ := acc.2.1
    if lab ≠ clicked ∧ (σ.isplotted lab || sn lab) then
      let sn2 := setFlag sn lab false
      let r2 := recur (toggleChecked σ lab) lab
      if r2.2 then (sn2, r2)
      else (sn2, ({ r2.1 with do_replot := true }, false))
    else acc

/-- Block of lines 1113-1132: the 'all' branch and its deselect elif. -/
def blockA (recur : PlotState → String → PlotState × Bool) (clicked : String)
    (sn0 : String → Bool) (σ0 : PlotState) : (String → Bool) × (PlotState × Bool) :=
  if clicked = "all" ∧ sn0 clicked then
    let acc := CHKBOX_LABELS.foldl (stepA recur clicked) (sn0, (σ0, false))
    let r2 := seqMap acc.2 resetIfReplot
    (acc.1, seqMap r2 (plotSeries "all"))
  else if !(sn0 clicked) then (sn0, (reset_plots σ0, false))
  else (sn0, (σ0, false))

/-- Body of the ALL_EXCLUDED loop (lines 1135-1139). -/
def stepExB (recur : PlotState → String → PlotState × Bool) (sn : String → Bool)
    (r : PlotState × Bool) (lab : String) : PlotState × Bool :=
  if r.2 then r
  else
    let σ := r.1
    if σ.isplotted lab || sn lab then
      let σ1 := { σ with isplotted := setFlag σ.isplotted lab false }
      let r2 := recur (toggleChecked σ1 lab) lab
      if r2.2 then r2 else ({ r2.1 with do_replot := true }, false)
    else r

/-- Body of the inclusive replot loop (lines 1145-1147). -/
def stepRepB (sn : String → Bool) (r : PlotState × Bool) (lab : String) :
    PlotState × Bool :=
  if r.2 then r
  else
    let σ := r.1
    if sn lab && ALL_INCLUSIVE.contains lab && !(σ.isplotted lab) then callPlot lab σ
    else r

/-- Body of the deselect replot loop (lines 1154-1158): two independent
conditionals per label. -/
def stepRepBElif (sn : String → Bool) (r : PlotState × Bool) (lab : String) :
    PlotState × Bool :=
  if r.2 then r
  else
    let r1 :=
      if ALL_INCLUSIVE.contains lab && sn lab then callPlot lab r.1 else r
    if r1.2 then r1
    else if lab == "gw_series" && sn lab then (plotSeries "gw_series" r1.1, false)
    else r1

/-- Block of lines 1134-1158: the inclusive branch and its elif. -/
def blockB (recur : PlotState → String → PlotState × Bool) (clicked : String)
    (sn : String → Bool) (r0 : PlotState × Bool) : PlotState × Bool :=
  if ALL_INCLUSIVE.contains clicked && sn clicked then
    seqOk r0 (fun σ =>
      let r1 := ALL_EXCLUDED.foldl (stepExB recur sn) (σ, false)
      let r2 := seqMap r1 resetIfReplot
      CHKBOX_LABELS.foldl (stepRepB sn) r2)
  else if !(sn clicked) then
    seqOk r0 (fun σ => CHKBOX_LABELS.foldl (stepRepBElif sn) (reset_plots σ, false))
  else r0

/-- Body of the GW_SERIES_EXCLUDED loop (lines 1163-1165): set_active
only, no isplotted write, no do_replot. -/
def stepExC (recur : PlotState → String → PlotState × Bool) (sn : String → Bool)
    (r : PlotState × Bool) (lab : String) : PlotState × Bool :=
  if r.2 then r
  else
    let σ := r.1
    if σ.isplotted lab || sn lab then recur (toggleChecked σ lab) lab
    else r

/-- Body of the gw_series replot loop (lines 1167-1169). -/
def stepRepC (sn : String → Bool) (r : PlotState × Bool) (lab : String) :
    PlotState × Bool :=
  if r.2 then r
  else
    let σ := r.1
    if sn lab && GW_SERIES_INCLUSIVE.contains lab && !(σ.isplotted lab) then
      callPlot lab σ
    else r

/-- Body of the gw_series deselect replot loop (lines 1176-1178). -/
def stepRepCElif (sn : String → Bool) (r : PlotState × Bool) (lab : String) :
    PlotState × Bool :=
  if r.2 then r
  else if sn lab && GW_SERIES_INCLUSIVE.contains lab then callPlot lab r.1
  else r

/-- Block of lines 1160-1178: the gw_series branch and its elif. -/
def blockC (recur : PlotState → String → PlotState × Bool) (clicked : String)
    (sn : String → Bool) (r0 : PlotState × Bool) : PlotState × Bool :=
  if clicked == "gw_series" && sn clicked then
    seqOk r0 (fun σ =>
      let r1 := GW_SERIES_EXCLUDED.foldl (stepExC recur sn) (σ, false)
      CHKBOX_LABELS.foldl (stepRepC sn) r1)
  else if !(sn clicked) then
    seqOk r0 (fun σ => CHKBOX_LABELS.foldl (stepRepCElif sn) (reset_plots σ, false))
  else r0

/-- Body of the fgrpG1_freq exclusion loop (lines 1184-1187). -/
def stepD (recur : PlotState → String → PlotState × Bool) (clicked : String)
    (sn : String → Bool) (r : PlotState × Bool) (lab : String) : PlotState × Bool :=
  if r.2 then r
  else
    let σ := r.1
    if lab ≠ clicked ∧ (σ.isplotted lab || sn lab) then
      let r2 := recur (toggleChecked σ lab) lab
      if r2.2 then r2 else ({ r2.1 with do_replot := true }, false)
    else r

/-- Block of lines 1180-1193 (dead for the labels of this checkbox set:
no checkbox label equals 'fgrpG1_freq'). -/
def blockD (recur : PlotState → String → PlotState × Bool) (clicked : String)
    (sn : String → Bool) (r0 : PlotState × Bool) : PlotState × Bool :=
  if clicked == "fgrpG1_freq" && sn clicked then
    seqOk r0 (fun σ =>
      let r1 := CHKBOX_LABELS.foldl (stepD recur clicked sn) (σ, false)
      let r2 := seqMap r1 resetIfReplot
      seqOk r2 (callPlot clicked))
  else r0

/-- Block of lines 1195-1206 (dead for the labels of this checkbox set);
this loop also clears the local ischecked entries. -/
def blockE (recur : PlotState → String → PlotState × Bool) (clicked : String)
    (sn : String → Bool) (r0 : PlotState × Bool) : PlotState × Bool :=
  if clicked == "gw_O3_freq" && sn clicked then
    seqOk r0 (fun σ =>
      let acc := CHKBOX_LABELS.foldl (stepA recur clicked) (sn, (σ, false))
      let r2 := seqMap acc.2 resetIfReplot
      seqOk r2 (callPlot clicked))
  else r0

/-- PlotTasks.manage_plots as a fuelled interpreter. The local ischecked
dict is the snapshot sn0, threaded through block A (which writes it). -/
def managePlots : ℕ → PlotState → String → PlotState × Bool
  | 0, σ, _ => (σ, true)
  | Nat.succ fuel, σ, clicked =>
    let recur := fun σ2 l2 => managePlots fuel σ2 l2
    let a := blockA recur clicked σ.checked σ
    let r2 := blockB recur clicked a.1 a.2
    let r3 := blockC recur clicked a.1 r2
    let r4 := blockD recur clicked a.1 r3
    blockE recur clicked a.1 r4

def FUEL : ℕ := 6

/-- One user click on a checkbox: the box toggles, then manage_plots runs
with the clicked label. Clicks can only hit the labels that exist. -/
def userToggleR (σ : PlotState) (l : String) : PlotState × Bool :=
  if CHKBOX_LABELS.contains l then managePlots FUEL (toggleChecked σ l) l
  else (σ, false)

def userToggle (σ : PlotState) (l : String) : PlotState :=
  (userToggleR σ l).1

/-- State before setup_plot_manager activates anything. -/
def plotInit : PlotState :=
  { checked := fun _ => false, isplotted := fun _ => false,
    do_replot := false, canvas := [] }

/-- State after setup_plot_manager's checkbox.set_active('all'). -/
def startupState : PlotState :=
  (managePlots FUEL (toggleChecked plotInit "all") "all").1

/-- The labels that possess a plot function reachable from the checkbox
set: every isplotted key that can ever be set true by a toggle event
(the freq entries of plot_proj are unreachable since no checkbox label
equals their key). -/
def PLOT_KEYS : List String :=
  ["all", "fgrp5", "fgrpG1", "gw_O3", "gw_O2", "gw_series", "brp4"]

/-- The deselect flow of manage_plots: when the clicked label is
unchecked, the handler runs the three elif branches (lines 1131-1132,
1149-1158, 1171-1178): reset, reset plus the inclusive/gw_series replot
loop, reset plus the gw_series-inclusive replot loop. It performs no
set_active call, hence no re-entry. -/
def uncheckedRun (σ : PlotState) : PlotState × Bool :=
  let r1 : PlotState × Bool := (reset_plots σ, false)
  let r2 := seqOk r1 (fun s => CHKBOX_LABELS.foldl (stepRepBElif σ.checked)
    (reset_plots s, false))
  seqOk r2 (fun s => CHKBOX_LABELS.foldl (stepRepCElif σ.checked) (reset_plots s, false))

/-- drawn implies checked. -/
def SubP (σ : PlotState) : Prop := ∀ l, σ.isplotted l = true → σ.checked l = true

/-- only labels with a reachable plot function are ever drawn. -/
def OnlyP (σ : PlotState) : Prop := ∀ l, σ.isplotted l = true → l ∈ PLOT_KEYS

/-- when the exclusive 'all' series is drawn, nothing else is. -/
def ExAllP (σ : PlotState) : Prop :=
  σ.isplotted "all" = true → ∀ l, l ≠ "all" → σ.isplotted l = false

/-- The controller invariant maintained by every user toggle. -/
def InvP (σ : PlotState) : Prop := SubP σ ∧ OnlyP σ ∧ ExAllP σ

/-! ## Concrete data of the example scenario (spec section 8) -/

def exRow0 : JobRow :=
  { time_stamp := some 1000000000, task_name := "LATeah1000F_100.0_0_0.0_1_1",
    task_t := some 10 }

def exRow1 : JobRow :=
  { time_stamp := none, task_name := "LATeah1000F_200.0_0_0.0_2_1",
    task_t := some 20 }

def exRow2 : JobRow :=
  { time_stamp := some 1000086400, task_name := "h1_300.50_O3aC01__O3AS1a_300.50Hz_1_1",
    task_t := some 30 }

def exRows : List JobRow := [exRow0, exRow1, exRow2]

/-- Three rows whose middle record lacks a completion time. -/
def c2Rows : List JobRow :=
  [{ time_stamp := some 1, task_name := "a", task_t := some 10 },
   { time_stamp := some 2, task_name := "b", task_t := none },
   { time_stamp := some 3, task_name := "c", task_t := some 30 }]

def w1r0 : JobRow :=
  { time_stamp := some 0, task_name := "LATeah1000F_1_1", task_t := some 1 }

def w1r1 : JobRow :=
  { time_stamp := some 100, task_name := "LATeah2000F_2_1", task_t := some 2 }

def w1Rows : List JobRow := [w1r0, w1r1]

/-! # Theorems -/

/-! ## C10: setup_slider is total on its frequency bound -/

/-- C10: setup_slider accepts a missing (NaN) maximum frequency, giving
slider limits (0, 1), and for an available maximum frequency f the upper
limit is f plus a 2% margin, i.e. f * 1.02; no error value exists. -/
theorem c10_setup_slider_total :
    setup_slider none = (0, 1) ∧ ∀ f : ℚ, setup_slider (some f) = (0, f * (102 / 100)) := by
  refine ⟨rfl, fun f => ?_⟩
  have h : f + f * (2 / 100) = f * (102 / 100) := by ring
  simp [setup_slider, h]

/-! ## C9: reset_plots empties the drawn set unconditionally -/

/-- C9: after reset_plots every isplotted flag is False and the canvas is
cleared, for every state and every label, so a redraw after a reset
starts from an empty drawn set. -/
theorem c9_reset_plots_clears :
    ∀ (σ : PlotState) (l : String),
      (reset_plots σ).isplotted l = false ∧ (reset_plots σ).canvas = [] := by
  intro σ l
  exact ⟨rfl, rfl⟩

/-! ## C5: first-line validation -/

theorem matchDW_readLineUpTo (k : ℕ) :
    ∀ cs : List Char, matchDW k (readLineUpTo (k + 1) cs) = matchDW k cs := by
  induction k with
  | zero =>
    intro cs
    cases cs with
    | nil => rfl
    | cons c cs =>
      simp only [readLineUpTo]
      by_cases hc : c == '\n'
      · have : c = '\n' := by exact eq_of_beq hc
        subst this
        simp [matchDW]
      · simp [hc, matchDW, readLineUpTo]
  | succ k ih =>
    intro cs
    cases cs with
    | nil => rfl
    | cons c cs =>
      simp only [readLineUpTo]
      by_cases hc : c == '\n'
      · have hcn : c = '\n' := by exact eq_of_beq hc
        subst hcn
        have hd : ('\n').isDigit = false := by decide
        simp [matchDW, hd]
      · simp [hc, matchDW, ih cs]

theorem matchDW_iff (k : ℕ) :
    ∀ cs : List Char,
      matchDW k cs = true ↔
        ((∀ c ∈ cs.take k, c.isDigit = true) ∧
          ∃ c, cs.get? k = some c ∧ isWsChar c = true) := by
  induction k with
  | zero =>
    intro cs
    cases cs with
    | nil => simp [matchDW, List.get?]
    | cons c cs => simp [matchDW, List.get?]
  | succ k ih =>
    intro cs
    cases cs with
    | nil => simp [matchDW, List.get?]
    | cons c cs =>
      rw [show matchDW (k + 1) (c :: cs) = (c.isDigit && matchDW k cs) from rfl,
        Bool.and_eq_true, ih cs]
      simp only [List.take_succ_cons, List.mem_cons, List.get?]
      constructor
      · rintro ⟨hd, hall, hex⟩
        exact ⟨by rintro x (rfl | hx); exact hd; exact hall x hx, hex⟩
      · rintro ⟨hall, hex⟩
        exact ⟨hall c (Or.inl rfl), fun x hx => hall x (Or.inr hx), hex⟩

theorem firstLine10DigitsWs_iff (cs : List Char) :
    firstLine10DigitsWs cs = true ↔
      ((∀ c ∈ cs.take 10, c.isDigit = true) ∧
        ∃ c, cs.get? 10 = some c ∧ isWsChar c = true) := by
  unfold firstLine10DigitsWs
  rw [Bool.and_eq_true, Bool.and_eq_true]
  constructor
  · rintro ⟨⟨_, hall⟩, hws⟩
    refine ⟨by simpa [List.all_eq_true] using hall, ?_⟩
    cases hg : cs.get? 10 with
    | none => rw [hg] at hws; exact absurd hws (by simp)
    | some c => rw [hg] at hws; exact ⟨c, rfl, hws⟩
  · rintro ⟨hall, c, hg, hws⟩
    have hlen : 10 < cs.length := by
      by_contra hle
      rw [List.get?_eq_none.mpr (by omega)] at hg
      exact absurd hg (by simp)
    refine ⟨⟨?_, by simpa [List.all_eq_true] using hall⟩, by rw [hg]; exact hws⟩
    simp [List.length_take]
    omega

theorem matchDW_eq_firstLine (cs : List Char) :
    matchDW 10 cs = firstLine10DigitsWs cs := by
  rw [Bool.eq_iff_iff, matchDW_iff 10 cs, firstLine10DigitsWs_iff cs]

/-- C5: validate_datafile accepts the file exactly when its first line
begins with ten ASCII digits followed by a whitespace character, and
otherwise terminates the load with a fatal message that names the bad
file. -/
theorem c5_validate_datafile (fp : String) (content : List Char) :
    (firstLine10DigitsWs content = true → validate_datafile fp content = Except.ok ()) ∧
    (firstLine10DigitsWs content = false →
      ∃ a b : String, validate_datafile fp content = Except.error (a ++ fp ++ b)) := by
  have key : matchDW 10 (readLineUpTo 11 content) = firstLine10DigitsWs content := by
    rw [matchDW_readLineUpTo 10 content, matchDW_eq_firstLine content]
  constructor
  · intro h
    simp [validate_datafile, key, h]
  · intro h
    refine ⟨"*** Sorry, but the job log file ",
      " does not contain usable data. *** The first line should start with a" ++
        " BOINC reporting timestamp of 10 digits (Epoch seconds).", ?_⟩
    simp [validate_datafile, key, h, badFileMsg, String.append_assoc]

theorem c5_witness :
    validate_datafile "job_log.txt" ("1234567890 ue 1.0".data) = Except.ok () ∧
    ∃ a b : String,
      validate_datafile "job_log.txt" ("bad first line".data) =
        Except.error (a ++ "job_log.txt" ++ b) :=
  ⟨(c5_validate_datafile "job_log.txt" ("1234567890 ue 1.0".data)).1 (by decide),
   (c5_validate_datafile "job_log.txt" ("bad first line".data)).2 (by decide)⟩

/-! ## C2: the missing-time repair -/

/-- C2 counterexample: the load-time repair leaves a missing completion
time in place — only the report-time column is interpolated, so the
middle record of c2Rows still has no completion time after the repair. -/
theorem c2_counterexample :
    ((repairTimeStamps c2Rows).map (fun r => r.task_t)) = [some 10, none, some 30] ∧
    ¬ (∀ r ∈ repairTimeStamps c2Rows, r.task_t.isSome = true) := by
  constructor
  · decide
  · decide

theorem interpolateLinear_isSome_of_head (col : List (Option ℚ)) (v : ℚ)
    (h : col.head? = some (some v)) :
    ∀ x ∈ interpolateLinear col, x.isSome = true := by
  intro x hx
  obtain ⟨c0, cs, rfl⟩ : ∃ c0 cs, col = c0 :: cs := by
    cases col with
    | nil => simp at h
    | cons c0 cs => exact ⟨c0, cs, rfl⟩
  have hc0 : c0 = some v := by simpa using h
  subst hc0
  simp only [interpolateLinear, List.mem_map, List.mem_range] at hx
  obtain ⟨i, hi, rfl⟩ := hx
  cases hget : (some v :: cs).get? i with
  | none =>
    rw [List.get?_eq_none] at hget
    omega
  | some cell =>
    cases cell with
    | some w =>
      unfold interpAt
      rw [hget]
      rfl
    | none =>
      have hi0 : i ≠ 0 := by
        intro h0
        subst h0
        simp [List.get?] at hget
      obtain ⟨j, hj⟩ : ∃ j, i = j + 1 := ⟨i - 1, by omega⟩
      subst hj
      have htake : (some v :: cs).take (j + 1) = some v :: cs.take j := by
        simp [List.take_succ_cons]
      have hlast : (lastValidBefore (some v :: cs) (j + 1)).isSome = true := by
        unfold lastValidBefore
        rw [htake]
        have hve : validEntries (some v :: cs.take j) =
            (0, v) :: (List.enumFrom 1 (cs.take j)).filterMap
              (fun p => p.2.map (fun w => (p.1, w))) := by
          simp [validEntries, List.enum_cons, List.filterMap_cons]
        rw [hve, List.getLast?_isSome]
        simp
      obtain ⟨jv, hjv⟩ := Option.isSome_iff_exists.mp hlast
      unfold interpAt
      rw [hget, hjv]
      cases hfva : firstValidAfter (some v :: cs) (j + 1) with
      | none => rfl
      | some kv => rfl

/-- At any position of any column, a missing cell whose immediate
neighbors hold valid values a and b interpolates to exactly (a + b) / 2:
the nearest valid entries are those neighbors, one step away on each
side. -/
theorem interpAt_isolated_gap (col : List (Option ℚ)) (i : ℕ) (a b : ℚ)
    (ha : col.get? i = some (some a)) (hn : col.get? (i + 1) = some none)
    (hb : col.get? (i + 2) = some (some b)) :
    interpAt col (i + 1) = some ((a + b) / 2) := by
  have hilen : i < col.length := by
    by_contra hc
    rw [List.get?_eq_none.mpr (by omega)] at ha
    cases ha
  have hgeta : col[i]? = some (some a) := by
    rw [← List.get?_eq_getElem?]
    exact ha
  have htake : col.take (i + 1) = col.take i ++ [some a] := by
    rw [List.take_succ, hgeta]
    rfl
  have hlen_take : (col.take i).length = i := by
    rw [List.length_take]
    omega
  have hlast : lastValidBefore col (i + 1) = some (i, a) := by
    unfold lastValidBefore validEntries
    rw [htake, List.enum_append, List.filterMap_append, hlen_take]
    have h2 : List.filterMap (fun p => p.2.map (fun v => (p.1, v)))
        (List.enumFrom i [some a]) = [(i, a)] := rfl
    rw [h2]
    exact List.getLast?_concat _
  have hdrop_head : (col.drop (i + 2)).get? 0 = some (some b) := by
    rw [List.get?_drop]
    exact hb
  obtain ⟨tl, htl⟩ : ∃ tl, col.drop (i + 2) = some b :: tl := by
    cases hd : col.drop (i + 2) with
    | nil =>
      rw [hd] at hdrop_head
      cases hdrop_head
    | cons x tl =>
      rw [hd] at hdrop_head
      simp only [List.get?] at hdrop_head
      exact ⟨tl, by rw [← (Option.some.injEq _ _).mp hdrop_head]⟩
  have hfirst : firstValidAfter col (i + 1) = some (i + 2, b) := by
    unfold firstValidAfter validEntries
    rw [show i + 1 + 1 = i + 2 from rfl, htl]
    simp [List.enum_cons, List.filterMap_cons]
  unfold interpAt
  simp only [hn, hlast, hfirst]
  congr 1
  push_cast
  ring

/-- Three-row instance, fully evaluated (used by the C4 scenario). -/
theorem interp_three_gap (a b : ℚ) :
    interpolateLinear [some a, none, some b] = [some a, some ((a + b) / 2), some b] := by
  have h2 : interpAt [some a, none, some b] 1 = some ((a + b) / 2) := by
    simp only [interpAt, lastValidBefore, firstValidAfter, validEntries]
    norm_num [List.enum_cons, List.filterMap_cons, List.get?]
    ring
  have h0 : interpAt [some a, none, some b] 0 = some a := by simp [interpAt, List.get?]
  have h3 : interpAt [some a, none, some b] 2 = some b := by simp [interpAt, List.get?]
  simp [interpolateLinear, List.range_succ, h0, h2, h3]

/-- Whole-column version of the isolated-gap repair: the repaired column
holds exactly (a + b) / 2 at the gap. -/
theorem interp_single_gap (col : List (Option ℚ)) (i : ℕ) (a b : ℚ)
    (ha : col.get? i = some (some a)) (hn : col.get? (i + 1) = some none)
    (hb : col.get? (i + 2) = some (some b)) :
    (interpolateLinear col).get? (i + 1) = some (some ((a + b) / 2)) := by
  have hlen : i + 2 < col.length := by
    by_contra hc
    rw [List.get?_eq_none.mpr (by omega)] at hb
    cases hb
  unfold interpolateLinear
  rw [List.get?_map, List.get?_range (by omega : i + 1 < col.length)]
  simp only [Option.map_some']
  rw [interpAt_isolated_gap col i a b ha hn hb]

theorem repairTimeStamps_map_time_stamp :
    ∀ rows : List JobRow,
      (repairTimeStamps rows).map (fun r => r.time_stamp) =
        interpolateLinear (rows.map (fun r => r.time_stamp)) := by
  have gen : ∀ (rs : List JobRow) (l : List (Option ℚ)), rs.length = l.length →
      ((rs.zip l).map (fun p => { p.1 with time_stamp := p.2 })).map (fun r => r.time_stamp) =
        l := by
    intro rs
    induction rs with
    | nil =>
      intro l hl
      cases l with
      | nil => rfl
      | cons v l => simp at hl
    | cons r rs ih =>
      intro l hl
      cases l with
      | nil => simp at hl
      | cons v l =>
        simp only [List.zip_cons_cons, List.map_cons]
        have := ih l (by simpa using hl)
        simp [this]
  intro rows
  apply gen
  simp [interpolateLinear]

theorem repairTimeStamps_preserves_task_t :
    ∀ rows : List JobRow,
      (repairTimeStamps rows).map (fun r => r.task_t) = rows.map (fun r => r.task_t) := by
  have gen : ∀ (rs : List JobRow) (l : List (Option ℚ)), rs.length ≤ l.length →
      ((rs.zip l).map (fun p => { p.1 with time_stamp := p.2 })).map (fun r => r.task_t) =
        rs.map (fun r => r.task_t) := by
    intro rs
    induction rs with
    | nil => intro l _; simp
    | cons r rs ih =>
      intro l hl
      cases l with
      | nil => simp at hl
      | cons v l =>
        simp only [List.zip_cons_cons, List.map_cons]
        have := ih l (by simpa using hl)
        simp [this]
  intro rows
  apply gen
  simp [interpolateLinear]

/-- C2 amended: the repair interpolates only the report-time column, in
row order; when the first record's report time is present no report time
is missing afterwards (interior gaps are interpolated, trailing gaps
repeat the last valid value, and only a leading gap could survive); at
any position of any column, a missing value whose immediate neighbors
hold valid values a and b is repaired to exactly (a + b) / 2; the
completion-time column is left untouched. -/
theorem c2_amended :
    (∀ (col : List (Option ℚ)) (v : ℚ), col.head? = some (some v) →
      ∀ x ∈ interpolateLinear col, x.isSome = true) ∧
    (∀ (col : List (Option ℚ)) (i : ℕ) (a b : ℚ),
      col.get? i = some (some a) → col.get? (i + 1) = some none →
      col.get? (i + 2) = some (some b) →
      (interpolateLinear col).get? (i + 1) = some (some ((a + b) / 2))) ∧
    (∀ rows : List JobRow,
      (repairTimeStamps rows).map (fun r => r.task_t) = rows.map (fun r => r.task_t)) := by
  exact ⟨interpolateLinear_isSome_of_head, interp_single_gap,
    repairTimeStamps_preserves_task_t⟩

theorem c2_witness :
    (∀ x ∈ interpolateLinear [some (1 : ℚ), none], x.isSome = true) ∧
    (interpolateLinear [some (7 : ℚ), some 2, none, some 4]).get? 2 =
      some (some ((2 + 4) / 2)) :=
  ⟨c2_amended.1 [some (1 : ℚ), none] 1 rfl,
   c2_amended.2.1 [some (7 : ℚ), some 2, none, some 4] 1 2 4 rfl rfl rfl⟩

/-! ## C4: the example scenario -/

/-- C4 counterexample: on the spec's three-row example log the fgrp
frequency rule does not yield (100.0, 200.0, null): the fgrpG1_freq
column is restricted to fgrpG1 members and rows 0-1 are fgrp5 (not
fgrpG1) records, so all three values are missing. -/
theorem c4_counterexample :
    ((repairTimeStamps exRows).map (fun r => fgrpG1_freq r.task_name)) ≠
      [some 100, some 200, none] ∧
    ((repairTimeStamps exRows).map (fun r => fgrpG1_freq r.task_name)) =
      [none, none, none] := by
  constructor
  · decide
  · decide

/-- C4 amended: on the example log the middle report time interpolates to
1000043200, is_fgrp5 is true for rows 0-1, is_gw_O3 is true for row 2,
the gw rule extracts (null, null, 300.50), and the fgrp rule gives
(null, null, null): its pattern does match rows 0-1 (extracting 100 and
200) but the restriction of the rule to fgrpG1 members forces those
non-members to a missing value. -/
theorem c4_amended :
    ((repairTimeStamps exRows).map (fun r => r.time_stamp)) =
      [some 1000000000, some 1000043200, some 1000086400] ∧
    (exRows.map (fun r => is_fgrp5_name r.task_name)) = [true, true, false] ∧
    (exRows.map (fun r => is_gw_O3_name r.task_name)) = [false, false, true] ∧
    (exRows.map (fun r => gw_freq r.task_name)) = [none, none, some (601 / 2)] ∧
    (exRows.map (fun r => fgrpG1_freq r.task_name)) = [none, none, none] ∧
    scanExtract fgrpG1FreqAt exRow0.task_name.data = some 100 ∧
    scanExtract fgrpG1FreqAt exRow1.task_name.data = some 200 ∧
    is_fgrpG1_name exRow0.task_name = false ∧
    is_fgrpG1_name exRow1.task_name = false := by
  have hts : (repairTimeStamps exRows).map (fun r => r.time_stamp) =
      [some 1000000000, some 1000043200, some 1000086400] := by
    rw [repairTimeStamps_map_time_stamp exRows]
    have hcol : exRows.map (fun r => r.time_stamp) =
        [some 1000000000, none, some 1000086400] := by
      simp [exRows, exRow0, exRow1, exRow2]
    rw [hcol, interp_three_gap 1000000000 1000086400]
    norm_num
  have hgw : exRows.map (fun r => gw_freq r.task_name) =
      [none, none, some (mkRat 30050 100)] := by decide
  have hv : (mkRat 30050 100 : ℚ) = 601 / 2 := by
    rw [Rat.mkRat_eq_div]
    norm_num
  refine ⟨hts, by decide, by decide, ?_, by decide, by decide,
    by decide, by decide, by decide⟩
  rw [hgw, hv]

/-! ## C1: daily count consistency -/

/-- C1: in a loaded table with no missing report times, a record that is
a member of project P carries a `<P>_Dcnt` equal to the number of records
that are P members and share its report day, and a record that is not a
P member carries a missing (not zero) `<P>_Dcnt`. -/
theorem c1_daily_count (rows : List JobRow) (isP : String → Bool)
    (h : ∀ r ∈ rows, r.time_stamp.isSome = true)
    (i : ℕ) (r : JobRow) (hi : rows.get? i = some r) :
    (isP r.task_name = true →
      dcnt rows isP i = some (rows.countP (fun x => isP x.task_name &&
        (x.time_stamp.map (fun t => ⌊t / 86400⌋) ==
          r.time_stamp.map (fun t => ⌊t / 86400⌋))))) ∧
    (isP r.task_name = false → dcnt rows isP i = none) := by
  have hr : r ∈ rows := List.get?_mem hi
  obtain ⟨t, ht⟩ := Option.isSome_iff_exists.mp (h r hr)
  constructor
  · intro hp
    have hkey : dcntKey isP r = some ⌊t / 86400⌋ := by simp [dcntKey, ht, hp]
    simp only [dcnt, hi, Option.bind_eq_bind, Option.some_bind, hkey, Option.map_some']
    congr 1
    apply List.countP_congr
    intro x hxmem
    obtain ⟨u, hu⟩ := Option.isSome_iff_exists.mp (h x hxmem)
    cases hpx : isP x.task_name with
    | false => simp [dcntKey, hu, hpx, ht]
    | true => simp [dcntKey, hu, hpx, ht]
  · intro hp
    simp only [dcnt]
    rw [hi]
    simp [dcntKey, ht, hp]

theorem c1_witness :
    dcnt w1Rows is_fgrp5_name 0 = some (w1Rows.countP (fun x => is_fgrp5_name x.task_name &&
      (x.time_stamp.map (fun t => ⌊t / 86400⌋) ==
        w1r0.time_stamp.map (fun t => ⌊t / 86400⌋)))) :=
  (c1_daily_count w1Rows is_fgrp5_name (by decide) 0 w1r0 rfl).1 (by decide)

/-! ## C8: per-project summary statistics -/

theorem sum_map_ite_eq_countP (rows : List JobRow) (isP : String → Bool) :
    (rows.map (fun r => if isP r.task_name then 1 else 0)).sum =
      rows.countP (fun r => isP r.task_name) := by
  induction rows with
  | nil => rfl
  | cons r rows ih =>
    simp only [List.map_cons, List.sum_cons, List.countP_cons, ih]
    cases h : isP r.task_name <;> simp [h] <;> omega

theorem enumFrom_filterMap_snd (g : JobRow → Option ℤ) :
    ∀ (l : List JobRow) (n : ℕ),
      (List.enumFrom n l).filterMap (fun p => g p.2) = l.filterMap g := by
  intro l
  induction l with
  | nil => intro n; rfl
  | cons r rs ih =>
    intro n
    simp only [List.enumFrom_cons, List.filterMap_cons]
    cases g r <;> simp [ih]

theorem dcnt_isSome_eq (rows : List JobRow) (isP : String → Bool)
    (h : ∀ r ∈ rows, r.time_stamp.isSome = true)
    (i : ℕ) (r : JobRow) (hi : rows.get? i = some r) :
    (dcnt rows isP i).isSome = isP r.task_name := by
  obtain ⟨t, ht⟩ := Option.isSome_iff_exists.mp (h r (List.get?_mem hi))
  cases hp : isP r.task_name
  all_goals
    simp only [dcnt]
    rw [hi]
    simp [dcntKey, ht, hp]

theorem projDays_eq_matchingDays (rows : List JobRow) (isP : String → Bool)
    (h : ∀ r ∈ rows, r.time_stamp.isSome = true) :
    projDays rows isP = matchingDays rows isP := by
  unfold projDays matchingDays
  congr 2
  have step1 : rows.enum.filterMap (fun p =>
      if (dcnt rows isP p.1).isSome then p.2.time_stamp.map (fun t => ⌊t / 86400⌋)
      else none) =
      rows.enum.filterMap (fun p =>
        if isP p.2.task_name then p.2.time_stamp.map (fun t => ⌊t / 86400⌋) else none) := by
    apply List.filterMap_congr
    intro p hp
    have hget : rows.get? p.1 = some p.2 := List.mem_enum_iff_get?.mp hp
    rw [dcnt_isSome_eq rows isP h p.1 p.2 hget]
  rw [step1]
  exact enumFrom_filterMap_snd
    (fun r => if isP r.task_name then r.time_stamp.map (fun t => ⌊t / 86400⌋) else none)
    rows 0

/-- C8: for a project with membership predicate isP, on a table with no
missing report times: the total is the count of member records;
days_observed (the grouping pipeline of count_log_projects) is the number
of distinct report days among member records, that is the number of
distinct calendar days with at least one non-missing daily count; the
daily mean is round(total / days, 1) when the total is non-zero and 0
otherwise; and the division never divides by zero because a non-zero
total forces at least one observed day. -/
theorem c8_summary_stats (rows : List JobRow) (isP : String → Bool)
    (h : ∀ r ∈ rows, r.time_stamp.isSome = true) :
    projTotal rows isP = rows.countP (fun r => isP r.task_name) ∧
    projDays rows isP = matchingDays rows isP ∧
    (projTotal rows isP ≠ 0 → projDays rows isP ≠ 0) ∧
    projDailyMean rows isP =
      (if rows.countP (fun r => isP r.task_name) ≠ 0 then
        round1 ((rows.countP (fun r => isP r.task_name) : ℚ) / (matchingDays rows isP : ℚ))
      else 0) := by
  have h1 : projTotal rows isP = rows.countP (fun r => isP r.task_name) :=
    sum_map_ite_eq_countP rows isP
  have h2 : projDays rows isP = matchingDays rows isP :=
    projDays_eq_matchingDays rows isP h
  have h3 : projTotal rows isP ≠ 0 → projDays rows isP ≠ 0 := by
    intro hne
    rw [h1] at hne
    have hpos : 0 < rows.countP (fun r => isP r.task_name) := Nat.pos_of_ne_zero hne
    obtain ⟨r, hrmem, hrp⟩ := List.countP_pos.mp hpos
    obtain ⟨t, ht⟩ := Option.isSome_iff_exists.mp (h r hrmem)
    rw [h2]
    unfold matchingDays
    intro hlen
    rw [List.length_eq_zero, List.dedup_eq_nil] at hlen
    have hmem : (⌊t / 86400⌋ : ℤ) ∈ rows.filterMap (fun r =>
        if isP r.task_name then r.time_stamp.map (fun t => ⌊t / 86400⌋) else none) :=
      List.mem_filterMap.mpr ⟨r, hrmem, by simp [hrp, ht]⟩
    rw [hlen] at hmem
    simp at hmem
  refine ⟨h1, h2, h3, ?_⟩
  unfold projDailyMean
  rw [h1, h2]

theorem c8_witness :
    projTotal w1Rows is_fgrp5_name = w1Rows.countP (fun r => is_fgrp5_name r.task_name) ∧
    projDays w1Rows is_fgrp5_name = matchingDays w1Rows is_fgrp5_name ∧
    (projTotal w1Rows is_fgrp5_name ≠ 0 → projDays w1Rows is_fgrp5_name ≠ 0) ∧
    projDailyMean w1Rows is_fgrp5_name =
      (if w1Rows.countP (fun r => is_fgrp5_name r.task_name) ≠ 0 then
        round1 ((w1Rows.countP (fun r => is_fgrp5_name r.task_name) : ℚ) /
          (matchingDays w1Rows is_fgrp5_name : ℚ))
      else 0) :=
  c8_summary_stats w1Rows is_fgrp5_name (by decide)

/-! ## C6: toggling a series with zero matching records -/

/-- C6 counterexample: in this revision manage_plots has no no-data
handling at all. From the startup state (only 'all' drawn), toggling
brp4 over a table with zero brp4 records does change the drawn set:
brp4 becomes drawn (as an empty series), 'all' is cleared, with no
notice and no checkbox snap-back. -/
theorem c6_counterexample :
    w1Rows.countP (fun r => is_brp4_name r.task_name) = 0 ∧
    startupState.isplotted "all" = true ∧
    startupState.isplotted "brp4" = false ∧
    (userToggle startupState "brp4").isplotted "brp4" = true ∧
    (userToggle startupState "brp4").isplotted "all" = false ∧
    (userToggle startupState "brp4").canvas ≠ startupState.canvas := by
  exact ⟨by decide, by decide, by decide, by decide, by decide, by decide⟩

/-- C6 amended: a toggle of a series whose project has zero matching
records is handled exactly like any other selection — the toggle handler
never consults the data, so the series is drawn as an empty series: the
drawn set changes (brp4 drawn, 'all' cleared), no exception escapes, and
no notice or snap-back occurs. -/
theorem c6_amended (rows : List JobRow)
    (hzero : rows.countP (fun r => is_brp4_name r.task_name) = 0) :
    (userToggleR startupState "brp4").1.isplotted "brp4" = true ∧
    (userToggleR startupState "brp4").1.isplotted "all" = false ∧
    (userToggleR startupState "brp4").2 = false ∧
    (userToggleR startupState "brp4").1.canvas = ["brp4"] :=
  ⟨by decide, by decide, by decide, by decide⟩

theorem c6_witness :
    w1Rows.countP (fun r => is_brp4_name r.task_name) = 0 ∧
    (userToggleR startupState "brp4").1.isplotted "brp4" = true ∧
    (userToggleR startupState "brp4").1.isplotted "all" = false ∧
    (userToggleR startupState "brp4").2 = false ∧
    (userToggleR startupState "brp4").1.canvas = ["brp4"] :=
  ⟨by decide, c6_amended w1Rows (by decide)⟩

/-! ## C7: idempotent re-select of a drawn inclusive series -/

theorem foldl_fixed {α β : Type} (f : β → α → β) (a : β) :
    ∀ l : List α, (∀ x ∈ l, f a x = a) → l.foldl f a = a := by
  intro l
  induction l with
  | nil => intro _; rfl
  | cons x xs ih =>
    intro h
    rw [List.foldl_cons, h x (List.mem_cons_self x xs)]
    exact ih (fun y hy => h y (List.mem_cons_of_mem x hy))

/-- C7: delivering a select event for an Inclusive series that is already
checked and already drawn, in a consistent state (no exclusive series
checked or drawn, every checked inclusive series drawn, no pending
replot, brp7 never drawn since it has no plot function), leaves the
whole controller state — in particular the drawn set and the canvas —
unchanged and raises nothing: the replot loop skips every already-drawn
series, so no duplicate overlay is ever created. -/
theorem c7_reselect_noop (σ : PlotState) (p : String)
    (hp : p ∈ ALL_INCLUSIVE)
    (hchk : σ.checked p = true) (hplot : σ.isplotted p = true)
    (hex : ∀ e ∈ ALL_EXCLUDED, σ.checked e = false ∧ σ.isplotted e = false)
    (hrep : σ.do_replot = false)
    (hcons : ∀ q ∈ ALL_INCLUSIVE, σ.checked q = true → σ.isplotted q = true) :
    managePlots FUEL σ p = (σ, false) := by
  have hpa : p ≠ "all" := fun h => absurd (h ▸ hp) (by decide)
  have hpg : p ≠ "gw_series" := fun h => absurd (h ▸ hp) (by decide)
  have hpd : p ≠ "fgrpG1_freq" := fun h => absurd (h ▸ hp) (by decide)
  have hpe : p ≠ "gw_O3_freq" := fun h => absurd (h ▸ hp) (by decide)
  have hcont : ALL_INCLUSIVE.contains p = true := List.elem_eq_true_of_mem hp
  have hskip : ∀ lab, (σ.checked lab && ALL_INCLUSIVE.contains lab &&
      !σ.isplotted lab) = false := by
    intro lab
    cases hc : σ.checked lab with
    | false => simp
    | true =>
      cases hm : ALL_INCLUSIVE.contains lab with
      | false => simp
      | true =>
        have hmem : lab ∈ ALL_INCLUSIVE := List.elem_iff.mp hm
        simp [hcons lab hmem hc]
  have hA : ∀ recur, blockA recur p σ.checked σ = (σ.checked, (σ, false)) := by
    intro recur
    unfold blockA
    rw [if_neg (by simp [hpa]), if_neg (by simp [hchk])]
  have hB : ∀ recur, blockB recur p σ.checked (σ, false) = (σ, false) := by
    intro recur
    unfold blockB
    rw [if_pos (by rw [hcont, hchk]; rfl)]
    have hx1 : ALL_EXCLUDED.foldl (stepExB recur σ.checked) (σ, false) = (σ, false) := by
      apply foldl_fixed
      intro lab hl
      have := hex lab hl
      simp [stepExB, this.1, this.2]
    have hx2 : CHKBOX_LABELS.foldl (stepRepB σ.checked)
        (seqMap (σ, false) resetIfReplot) = (σ, false) := by
      have hmap : seqMap (σ, false) resetIfReplot = (σ, false) := by
        simp [seqMap, resetIfReplot, hrep]
      rw [hmap]
      apply foldl_fixed
      intro lab _
      simp only [stepRepB]
      simp
      intro h1 h2 h3
      exact absurd (hcons lab h2 h1) (by simp [h3])
    simp only [seqOk, Bool.false_eq_true, if_false]
    rw [hx1, hx2]
  have hC : ∀ recur, blockC recur p σ.checked (σ, false) = (σ, false) := by
    intro recur
    unfold blockC
    rw [if_neg (by simp [hpg]), if_neg (by simp [hchk])]
  have hD : ∀ recur, blockD recur p σ.checked (σ, false) = (σ, false) := by
    intro recur
    unfold blockD
    rw [if_neg (by simp [hpd])]
  have hE : ∀ recur, blockE recur p σ.checked (σ, false) = (σ, false) := by
    intro recur
    unfold blockE
    rw [if_neg (by simp [hpe])]
  have hstep : managePlots (Nat.succ 5) σ p =
      (let recur := fun σ2 l2 => managePlots 5 σ2 l2
       let a := blockA recur p σ.checked σ
       let r2 := blockB recur p a.1 a.2
       let r3 := blockC recur p a.1 r2
       let r4 := blockD recur p a.1 r3
       blockE recur p a.1 r4) := rfl
  show managePlots (Nat.succ 5) σ p = (σ, false)
  rw [hstep]
  simp only [hA, hB, hC, hD, hE]

/-- State with fgrp5 and fgrpG1 checked and drawn. -/
def c7State : PlotState :=
  { checked := setFlag (setFlag (fun _ => false) "fgrp5" true) "fgrpG1" true,
    isplotted := setFlag (setFlag (fun _ => false) "fgrp5" true) "fgrpG1" true,
    do_replot := false, canvas := ["fgrp5", "fgrpG1"] }

theorem c7_witness :
    c7State.checked "fgrp5" = true ∧ c7State.isplotted "fgrp5" = true ∧
    managePlots FUEL c7State "fgrp5" = (c7State, false) :=
  ⟨by decide, by decide,
    c7_reselect_noop c7State "fgrp5" (by decide) (by decide) (by decide)
      (by decide) (by decide) (by decide)⟩

/-! ## C3 machinery: structural lemmas about the controller -/

theorem plotSeries_isplotted_true (l : String) (σ : PlotState) (p : String)
    (h : (plotSeries l σ).isplotted p = true) : p = l ∨ σ.isplotted p = true := by
  by_cases hp : p = l
  · exact Or.inl hp
  · right
    simpa [plotSeries, setFlag, hp] using h

theorem plot_proj_spec (p : String) :
    plot_proj p = none ∨ plot_proj p = some (plotSeries p) := by
  unfold plot_proj
  split_ifs with h1 h2 h3 h4 h5 h6 h7 h8 h9
  · subst h1; exact Or.inr rfl
  · subst h2; exact Or.inr rfl
  · subst h3; exact Or.inr rfl
  · subst h4; exact Or.inr rfl
  · subst h5; exact Or.inr rfl
  · subst h6; exact Or.inr rfl
  · subst h7; exact Or.inr rfl
  · subst h8; exact Or.inr rfl
  · subst h9; exact Or.inr rfl
  · exact Or.inl rfl

theorem plot_proj_keys (p : String) (h : plot_proj p ≠ none) :
    p ∈ PLOT_KEYS ∨ p = "gw_O3_freq" ∨ p = "fgrpG1_freq" := by
  unfold plot_proj at h
  split_ifs at h with h1 h2 h3 h4 h5 h6 h7 h8 h9
  · exact Or.inl (h1 ▸ (by decide))
  · exact Or.inl (h2 ▸ (by decide))
  · exact Or.inl (h3 ▸ (by decide))
  · exact Or.inl (h4 ▸ (by decide))
  · exact Or.inl (h5 ▸ (by decide))
  · exact Or.inl (h6 ▸ (by decide))
  · exact Or.inl (h7 ▸ (by decide))
  · exact Or.inr (Or.inl h8)
  · exact Or.inr (Or.inr h9)
  · exact absurd rfl h

theorem callPlot_cases (lab : String) (σ : PlotState) :
    callPlot lab σ = (σ, true) ∨
      (callPlot lab σ = (plotSeries lab σ, false) ∧
        (lab ∈ PLOT_KEYS ∨ lab = "gw_O3_freq" ∨ lab = "fgrpG1_freq")) := by
  rcases plot_proj_spec lab with h | h
  · left
    unfold callPlot
    rw [h]
  · right
    refine ⟨by unfold callPlot; rw [h], plot_proj_keys lab (by rw [h]; simp)⟩

theorem foldl_preserve {α β : Type} (P : β → Prop) (f : β → α → β) :
    ∀ (l : List α) (b : β), P b → (∀ b x, x ∈ l → P b → P (f b x)) →
      P (l.foldl f b) := by
  intro l
  induction l with
  | nil => intro b hb _; exact hb
  | cons x xs ih =>
    intro b hb hstep
    rw [List.foldl_cons]
    exact ih (f b x) (hstep b x (List.mem_cons_self x xs) hb)
      (fun b2 y hy => hstep b2 y (List.mem_cons_of_mem x hy))

/-- Common conclusions of one replot-loop step. -/
def RepStepOk (sn : String → Bool) (r r2 : PlotState × Bool) : Prop :=
  r2.1.checked = r.1.checked ∧ r2.1.do_replot = r.1.do_replot ∧
  ∀ p, r2.1.isplotted p = true →
    r.1.isplotted p = true ∨ (sn p = true ∧ p ∈ PLOT_KEYS ∧ p ≠ "all")

theorem repStepOk_refl (sn : String → Bool) (r : PlotState × Bool) : RepStepOk sn r r :=
  ⟨rfl, rfl, fun _ h => Or.inl h⟩

theorem repStepOk_plot (sn : String → Bool) (r : PlotState × Bool) (lab : String)
    (hsn : sn lab = true) (hkeys : lab ∈ PLOT_KEYS) (hnall : lab ≠ "all")
    {b : Bool} : RepStepOk sn r (plotSeries lab r.1, b) := by
  refine ⟨rfl, rfl, fun p hp => ?_⟩
  rcases plotSeries_isplotted_true lab r.1 p hp with rfl | h
  · exact Or.inr ⟨hsn, hkeys, hnall⟩
  · exact Or.inl h

theorem stepRepBElif_sound (sn : String → Bool) (r : PlotState × Bool) (lab : String) :
    RepStepOk sn r (stepRepBElif sn r lab) := by
  unfold stepRepBElif
  by_cases hf : r.2 = true
  · rw [if_pos hf]
    exact repStepOk_refl sn r
  · rw [if_neg hf]
    by_cases hc1 : (ALL_INCLUSIVE.contains lab && sn lab) = true
    · rw [if_pos hc1]
      have hin : lab ∈ ALL_INCLUSIVE :=
        List.elem_iff.mp ((Bool.and_eq_true _ _).mp hc1).1
      have hsn : sn lab = true := ((Bool.and_eq_true _ _).mp hc1).2
      rcases callPlot_cases lab r.1 with hcall | ⟨hcall, hmem⟩
      · rw [hcall, if_pos rfl]
        exact repStepOk_refl sn r
      · have hkeys : lab ∈ PLOT_KEYS := by
          rcases hmem with h | h | h
          · exact h
          · exact absurd (h ▸ hin) (by decide)
          · exact absurd (h ▸ hin) (by decide)
        have hnall : lab ≠ "all" := fun hh => absurd (hh ▸ hin) (by decide)
        have hngw : (lab == "gw_series") = false := by
          rcases hbeq : lab == "gw_series" with _ | _
          · rfl
          · exact absurd ((eq_of_beq hbeq) ▸ hin) (by decide)
        rw [hcall, if_neg (by simp), hngw]
        simp only [Bool.false_and, Bool.false_eq_true, if_false]
        exact repStepOk_plot sn r lab hsn hkeys hnall
    · rw [if_neg hc1, if_neg hf]
      by_cases hc2 : ((lab == "gw_series") && sn lab) = true
      · rw [if_pos hc2]
        have hlab : lab = "gw_series" := eq_of_beq ((Bool.and_eq_true _ _).mp hc2).1
        have hsn : sn "gw_series" = true := hlab ▸ ((Bool.and_eq_true _ _).mp hc2).2
        exact repStepOk_plot sn r "gw_series" hsn (by decide) (by decide)
      · rw [if_neg hc2]
        exact repStepOk_refl sn r

theorem stepRepCElif_sound (sn : String → Bool) (r : PlotState × Bool) (lab : String) :
    RepStepOk sn r (stepRepCElif sn r lab) := by
  unfold stepRepCElif
  by_cases hf : r.2 = true
  · rw [if_pos hf]
    exact repStepOk_refl sn r
  · rw [if_neg hf]
    by_cases hc1 : (sn lab && GW_SERIES_INCLUSIVE.contains lab) = true
    · rw [if_pos hc1]
      have hin : lab ∈ GW_SERIES_INCLUSIVE :=
        List.elem_iff.mp ((Bool.and_eq_true _ _).mp hc1).2
      have hsn : sn lab = true := ((Bool.and_eq_true _ _).mp hc1).1
      rcases callPlot_cases lab r.1 with hcall | ⟨hcall, hmem⟩
      · rw [hcall]
        exact repStepOk_refl sn r
      · have hkeys : lab ∈ PLOT_KEYS := by
          rcases hmem with h | h | h
          · exact h
          · exact absurd (h ▸ hin) (by decide)
          · exact absurd (h ▸ hin) (by decide)
        have hnall : lab ≠ "all" := fun hh => absurd (hh ▸ hin) (by decide)
        rw [hcall]
        exact repStepOk_plot sn r lab hsn hkeys hnall
    · rw [if_neg hc1]
      exact repStepOk_refl sn r

theorem stepRepB_sound (sn : String → Bool) (r : PlotState × Bool) (lab : String) :
    RepStepOk sn r (stepRepB sn r lab) := by
  unfold stepRepB
  by_cases hf : r.2 = true
  · rw [if_pos hf]
    exact repStepOk_refl sn r
  · rw [if_neg hf]
    by_cases hc1 : (sn lab && ALL_INCLUSIVE.contains lab && !r.1.isplotted lab) = true
    · rw [if_pos hc1]
      have hparts := (Bool.and_eq_true _ _).mp hc1
      have hin : lab ∈ ALL_INCLUSIVE :=
        List.elem_iff.mp ((Bool.and_eq_true _ _).mp hparts.1).2
      have hsn : sn lab = true := ((Bool.and_eq_true _ _).mp hparts.1).1
      rcases callPlot_cases lab r.1 with hcall | ⟨hcall, hmem⟩
      · rw [hcall]
        exact repStepOk_refl sn r
      · have hkeys : lab ∈ PLOT_KEYS := by
          rcases hmem with h | h | h
          · exact h
          · exact absurd (h ▸ hin) (by decide)
          · exact absurd (h ▸ hin) (by decide)
        have hnall : lab ≠ "all" := fun hh => absurd (hh ▸ hin) (by decide)
        rw [hcall]
        exact repStepOk_plot sn r lab hsn hkeys hnall
    · rw [if_neg hc1]
      exact repStepOk_refl sn r

theorem stepRepC_sound (sn : String → Bool) (r : PlotState × Bool) (lab : String) :
    RepStepOk sn r (stepRepC sn r lab) := by
  unfold stepRepC
  by_cases hf : r.2 = true
  · rw [if_pos hf]
    exact repStepOk_refl sn r
  · rw [if_neg hf]
    by_cases hc1 : (sn lab && GW_SERIES_INCLUSIVE.contains lab && !r.1.isplotted lab) = true
    · rw [if_pos hc1]
      have hparts := (Bool.and_eq_true _ _).mp hc1
      have hin : lab ∈ GW_SERIES_INCLUSIVE :=
        List.elem_iff.mp ((Bool.and_eq_true _ _).mp hparts.1).2
      have hsn : sn lab = true := ((Bool.and_eq_true _ _).mp hparts.1).1
      rcases callPlot_cases lab r.1 with hcall | ⟨hcall, hmem⟩
      · rw [hcall]
        exact repStepOk_refl sn r
      · have hkeys : lab ∈ PLOT_KEYS := by
          rcases hmem with h | h | h
          · exact h
          · exact absurd (h ▸ hin) (by decide)
          · exact absurd (h ▸ hin) (by decide)
        have hnall : lab ≠ "all" := fun hh => absurd (hh ▸ hin) (by decide)
        rw [hcall]
        exact repStepOk_plot sn r lab hsn hkeys hnall
    · rw [if_neg hc1]
      exact repStepOk_refl sn r

theorem uncheckedRun_spec (σ : PlotState) :
    (uncheckedRun σ).1.checked = σ.checked ∧
    (uncheckedRun σ).1.do_replot = σ.do_replot ∧
    (uncheckedRun σ).1.isplotted "all" = false ∧
    (∀ p, (uncheckedRun σ).1.isplotted p = true →
      σ.checked p = true ∧ p ∈ PLOT_KEYS ∧ p ≠ "all") := by
  have main : ∀ (base : PlotState × Bool),
      base.1.checked = σ.checked → base.1.do_replot = σ.do_replot →
      (∀ p, base.1.isplotted p = true →
        σ.checked p = true ∧ p ∈ PLOT_KEYS ∧ p ≠ "all") →
      ∀ (step : (String → Bool) → PlotState × Bool → String → PlotState × Bool),
      (∀ r lab, RepStepOk σ.checked r (step σ.checked r lab)) →
      let res := CHKBOX_LABELS.foldl (step σ.checked) base
      res.1.checked = σ.checked ∧ res.1.do_replot = σ.do_replot ∧
      (∀ p, res.1.isplotted p = true →
        σ.checked p = true ∧ p ∈ PLOT_KEYS ∧ p ≠ "all") := by
    intro base h1 h2 h3 step hsound
    refine foldl_preserve (fun r => r.1.checked = σ.checked ∧ r.1.do_replot = σ.do_replot ∧
      ∀ p, r.1.isplotted p = true → σ.checked p = true ∧ p ∈ PLOT_KEYS ∧ p ≠ "all")
      (step σ.checked) CHKBOX_LABELS base ⟨h1, h2, h3⟩ ?_
    intro r lab _ hr
    obtain ⟨hs1, hs2, hs3⟩ := hsound r lab
    refine ⟨hs1.trans hr.1, hs2.trans hr.2.1, fun p hp => ?_⟩
    rcases hs3 p hp with h | ⟨ha, hb, hc⟩
    · exact hr.2.2 p h
    · exact ⟨ha, hb, hc⟩
  unfold uncheckedRun
  simp only [seqOk, Bool.false_eq_true, if_false]
  have base1 : ∀ s : PlotState, s.checked = σ.checked →
      ((reset_plots s : PlotState), false).1.checked = σ.checked ∧
      ((reset_plots s : PlotState), false).1.do_replot = s.do_replot ∧
      (∀ p, ((reset_plots s : PlotState), false).1.isplotted p = true →
        σ.checked p = true ∧ p ∈ PLOT_KEYS ∧ p ≠ "all") := by
    intro s hs
    exact ⟨hs, rfl, fun p hp => absurd hp (by simp [reset_plots])⟩
  have hB := main (reset_plots (reset_plots σ), false)
    ((base1 (reset_plots σ) rfl).1) rfl
    ((base1 (reset_plots σ) rfl).2.2) stepRepBElif (stepRepBElif_sound σ.checked)
  set rB := CHKBOX_LABELS.foldl (stepRepBElif σ.checked)
    (reset_plots (reset_plots σ), false) with hrB
  obtain ⟨hB1, hB2, hB3⟩ := hB
  by_cases hflag : rB.2 = true
  · rw [if_pos hflag]
    refine ⟨hB1, hB2, ?_, hB3⟩
    cases hq : rB.1.isplotted "all" with
    | false => rfl
    | true => exact absurd (hB3 "all" hq).2.2 (by simp)
  · rw [if_neg hflag]
    have hC := main (reset_plots rB.1, false) hB1 (by simpa using hB2)
      (fun p hp => absurd hp (by simp [reset_plots])) stepRepCElif
      (stepRepCElif_sound σ.checked)
    obtain ⟨hC1, hC2, hC3⟩ := hC
    refine ⟨hC1, hC2, ?_, hC3⟩
    cases hq : (CHKBOX_LABELS.foldl (stepRepCElif σ.checked)
        (reset_plots rB.1, false)).1.isplotted "all" with
    | false => rfl
    | true => exact absurd (hC3 "all" hq).2.2 (by simp)

/-- manage_plots on a deselected label is exactly the recursion-free
deselect flow. -/
theorem managePlots_unchecked (fuel : ℕ) (σ : PlotState) (l : String)
    (h : σ.checked l = false) :
    managePlots (fuel + 1) σ l = uncheckedRun σ := by
  have hstep : managePlots (fuel + 1) σ l =
      (let recur := fun σ2 l2 => managePlots fuel σ2 l2
       let a := blockA recur l σ.checked σ
       let r2 := blockB recur l a.1 a.2
       let r3 := blockC recur l a.1 r2
       let r4 := blockD recur l a.1 r3
       blockE recur l a.1 r4) := rfl
  have hA : ∀ recur, blockA recur l σ.checked σ = (σ.checked, (reset_plots σ, false)) := by
    intro recur
    unfold blockA
    rw [if_neg (by simp [h]), if_pos (by simp [h])]
  have hB : ∀ recur, blockB recur l σ.checked ((reset_plots σ : PlotState), false) =
      CHKBOX_LABELS.foldl (stepRepBElif σ.checked)
        (reset_plots (reset_plots σ), false) := by
    intro recur
    unfold blockB
    rw [if_neg (by simp [h]), if_pos (by simp [h])]
    simp [seqOk]
  have hC : ∀ recur r0, blockC recur l σ.checked r0 =
      seqOk r0 (fun s => CHKBOX_LABELS.foldl (stepRepCElif σ.checked)
        (reset_plots s, false)) := by
    intro recur r0
    unfold blockC
    rw [if_neg (by simp [h]), if_pos (by simp [h])]
  have hD : ∀ recur r0, blockD recur l σ.checked r0 = r0 := by
    intro recur r0
    unfold blockD
    rw [if_neg (by simp [h])]
  have hE : ∀ recur r0, blockE recur l σ.checked r0 = r0 := by
    intro recur r0
    unfold blockE
    rw [if_neg (by simp [h])]
  rw [hstep]
  simp only [hA, hB, hC, hD, hE]
  unfold uncheckedRun
  simp [seqOk]

/-- Walk of the ALL_EXCLUDED deactivation loop: along the loop, drawn
implies checked, only plottable labels are drawn, the 'all' series ends
up undrawn, and (when no exception was raised) the checkbox states of
labels outside ALL_EXCLUDED are untouched. Every set_active in the loop
hits a label that is checked at that moment, so the re-entrant call runs
the deselect flow. -/
theorem exB_walk (k : ℕ) (sn : String → Bool) :
    ∀ (rest : List String), (∀ x ∈ rest, x ∈ ALL_EXCLUDED) → rest.Nodup →
    ∀ r : PlotState × Bool,
      SubP r.1 → OnlyP r.1 →
      (r.1.isplotted "all" = false ∨ ("all" ∈ rest ∧ r.2 = false)) →
      (r.2 = false → ∀ x, (x ∈ rest ∨ x ∉ ALL_EXCLUDED) → r.1.checked x = sn x) →
      (SubP (rest.foldl (stepExB (fun σ2 l2 => managePlots (k + 1) σ2 l2) sn) r).1 ∧
        OnlyP (rest.foldl (stepExB (fun σ2 l2 => managePlots (k + 1) σ2 l2) sn) r).1) ∧
      (rest.foldl (stepExB (fun σ2 l2 => managePlots (k + 1) σ2 l2) sn) r).1.isplotted
        "all" = false ∧
      ((rest.foldl (stepExB (fun σ2 l2 => managePlots (k + 1) σ2 l2) sn) r).2 = false →
        ∀ x, x ∉ ALL_EXCLUDED →
          (rest.foldl (stepExB (fun σ2 l2 => managePlots (k + 1) σ2 l2) sn) r).1.checked
            x = sn x) := by
  intro rest
  induction rest with
  | nil =>
    intro _ _ r hSub hOnly hAll hStab
    refine ⟨⟨hSub, hOnly⟩, ?_, ?_⟩
    · rcases hAll with h | ⟨hmem, _⟩
      · exact h
      · exact absurd hmem (by simp)
    · intro hf x hx
      exact hStab hf x (Or.inr hx)
  | cons t rest' ih =>
    intro hsub hnd r hSub hOnly hAll hStab
    have hndc := List.nodup_cons.mp hnd
    have hsub' : ∀ x ∈ rest', x ∈ ALL_EXCLUDED :=
      fun x hx => hsub x (List.mem_cons_of_mem t hx)
    rw [List.foldl_cons]
    by_cases hf : r.2 = true
    · have hstep : stepExB (fun σ2 l2 => managePlots (k + 1) σ2 l2) sn r t = r := by
        unfold stepExB
        rw [if_pos hf]
      rw [hstep]
      refine ih hsub' hndc.2 r hSub hOnly ?_ ?_
      · rcases hAll with h | ⟨_, hr2⟩
        · exact Or.inl h
        · rw [hf] at hr2
          exact absurd hr2 (by simp)
      · intro hr2
        rw [hf] at hr2
        exact absurd hr2 (by simp)
    · have hf' : r.2 = false := by simpa using hf
      by_cases hc : (r.1.isplotted t || sn t) = true
      · -- this set_active fires; the toggled label is checked right now
        have hckt : r.1.checked t = true := by
          rcases (Bool.or_eq_true _ _).mp hc with hi | hs
          · exact hSub t hi
          · rw [hStab hf' t (Or.inl (List.mem_cons_self t rest')), hs]
        have hck2 : (toggleChecked
            { r.1 with isplotted := setFlag r.1.isplotted t false } t).checked t = false := by
          simp [toggleChecked, setFlag, hckt]
        have hrec : managePlots (k + 1)
            (toggleChecked { r.1 with isplotted := setFlag r.1.isplotted t false } t) t =
            uncheckedRun
              (toggleChecked { r.1 with isplotted := setFlag r.1.isplotted t false } t) :=
          managePlots_unchecked k _ t hck2
        obtain ⟨hu1, hu2, hu3, hu4⟩ := uncheckedRun_spec
          (toggleChecked { r.1 with isplotted := setFlag r.1.isplotted t false } t)
        have hstep : stepExB (fun σ2 l2 => managePlots (k + 1) σ2 l2) sn r t =
            (let r2 := uncheckedRun
              (toggleChecked { r.1 with isplotted := setFlag r.1.isplotted t false } t)
             if r2.2 = true then r2 else ({ r2.1 with do_replot := true }, false)) := by
          unfold stepExB
          rw [if_neg (by simp [hf']), if_pos hc]
          simp only [hrec]
        rw [hstep]
        have hchk2all : ∀ x, x ≠ t →
            (toggleChecked { r.1 with isplotted := setFlag r.1.isplotted t false } t).checked
              x = r.1.checked x := by
          intro x hx
          simp [toggleChecked, setFlag, hx]
        have hnewSub : SubP (uncheckedRun
            (toggleChecked { r.1 with isplotted := setFlag r.1.isplotted t false } t)).1 := by
          intro p hp
          rw [hu1]
          exact (hu4 p hp).1
        have hnewOnly : OnlyP (uncheckedRun
            (toggleChecked { r.1 with isplotted := setFlag r.1.isplotted t false } t)).1 :=
          fun p hp => (hu4 p hp).2.1
        have hnewStab : ∀ x, (x ∈ rest' ∨ x ∉ ALL_EXCLUDED) →
            (uncheckedRun
              (toggleChecked { r.1 with isplotted := setFlag r.1.isplotted t false } t)).1.checked
              x = sn x := by
          intro x hx
          have hxt : x ≠ t := by
            intro heq
            rcases hx with hx | hx
            · exact hndc.1 (heq ▸ hx)
            · exact hx (by rw [heq]; exact hsub t (List.mem_cons_self t rest'))
          rw [hu1, hchk2all x hxt]
          have hx2 : x ∈ t :: rest' ∨ x ∉ ALL_EXCLUDED := by
            rcases hx with hx | hx
            · exact Or.inl (List.mem_cons_of_mem t hx)
            · exact Or.inr hx
          exact hStab hf' x hx2
        by_cases hflag2 : (uncheckedRun
            (toggleChecked { r.1 with isplotted := setFlag r.1.isplotted t false } t)).2 = true
        · simp only [hflag2, if_true]
          exact ih hsub' hndc.2 _ hnewSub hnewOnly (Or.inl hu3)
            (fun h2 => absurd h2 (by simp [hflag2]))
        · simp only [hflag2, if_false, Bool.false_eq_true]
          have hflag2' : (uncheckedRun
              (toggleChecked { r.1 with isplotted := setFlag r.1.isplotted t false } t)).2
              = false := by simpa using hflag2
          refine ih hsub' hndc.2 _ hnewSub hnewOnly (Or.inl hu3) ?_
          intro _ x hx
          exact hnewStab x hx
      · have hstep : stepExB (fun σ2 l2 => managePlots (k + 1) σ2 l2) sn r t = r := by
          unfold stepExB
          rw [if_neg (by simp [hf']), if_neg hc]
        rw [hstep]
        refine ih hsub' hndc.2 r hSub hOnly ?_ ?_
        · rcases hAll with h | ⟨hmem, hr2⟩
          · exact Or.inl h
          · rcases List.mem_cons.mp hmem with heq | hmem'
            · left
              have : r.1.isplotted t = false := by
                rcases hq : r.1.isplotted t with _ | _
                · rfl
                · exact absurd (by rw [hq]; simp : (r.1.isplotted t || sn t) = true) hc
              rw [← heq] at this
              exact this
            · exact Or.inr ⟨hmem', hr2⟩
        · intro hr2 x hx
          have hx2 : x ∈ t :: rest' ∨ x ∉ ALL_EXCLUDED := by
            rcases hx with hx | hx
            · exact Or.inl (List.mem_cons_of_mem t hx)
            · exact Or.inr hx
          exact hStab hr2 x hx2

/-- Walk of the GW_SERIES_EXCLUDED deactivation loop (same shape as
exB_walk; this loop neither clears isplotted first nor sets do_replot). -/
theorem exC_walk (k : ℕ) (sn : String → Bool) :
    ∀ (rest : List String), (∀ x ∈ rest, x ∈ GW_SERIES_EXCLUDED) → rest.Nodup →
    ∀ r : PlotState × Bool,
      SubP r.1 → OnlyP r.1 →
      (r.1.isplotted "all" = false ∨ ("all" ∈ rest ∧ r.2 = false)) →
      (r.2 = false → ∀ x, (x ∈ rest ∨ x ∉ GW_SERIES_EXCLUDED) → r.1.checked x = sn x) →
      (SubP (rest.foldl (stepExC (fun σ2 l2 => managePlots (k + 1) σ2 l2) sn) r).1 ∧
        OnlyP (rest.foldl (stepExC (fun σ2 l2 => managePlots (k + 1) σ2 l2) sn) r).1) ∧
      (rest.foldl (stepExC (fun σ2 l2 => managePlots (k + 1) σ2 l2) sn) r).1.isplotted
        "all" = false ∧
      ((rest.foldl (stepExC (fun σ2 l2 => managePlots (k + 1) σ2 l2) sn) r).2 = false →
        ∀ x, x ∉ GW_SERIES_EXCLUDED →
          (rest.foldl (stepExC (fun σ2 l2 => managePlots (k + 1) σ2 l2) sn) r).1.checked
            x = sn x) := by
  intro rest
  induction rest with
  | nil =>
    intro _ _ r hSub hOnly hAll hStab
    refine ⟨⟨hSub, hOnly⟩, ?_, ?_⟩
    · rcases hAll with h | ⟨hmem, _⟩
      · exact h
      · exact absurd hmem (by simp)
    · intro hf x hx
      exact hStab hf x (Or.inr hx)
  | cons t rest' ih =>
    intro hsub hnd r hSub hOnly hAll hStab
    have hndc := List.nodup_cons.mp hnd
    have hsub' : ∀ x ∈ rest', x ∈ GW_SERIES_EXCLUDED :=
      fun x hx => hsub x (List.mem_cons_of_mem t hx)
    rw [List.foldl_cons]
    by_cases hf : r.2 = true
    · have hstep : stepExC (fun σ2 l2 => managePlots (k + 1) σ2 l2) sn r t = r := by
        unfold stepExC
        rw [if_pos hf]
      rw [hstep]
      refine ih hsub' hndc.2 r hSub hOnly ?_ ?_
      · rcases hAll with h | ⟨_, hr2⟩
        · exact Or.inl h
        · rw [hf] at hr2
          exact absurd hr2 (by simp)
      · intro hr2
        rw [hf] at hr2
        exact absurd hr2 (by simp)
    · have hf' : r.2 = false := by simpa using hf
      by_cases hc : (r.1.isplotted t || sn t) = true
      · have hckt : r.1.checked t = true := by
          rcases (Bool.or_eq_true _ _).mp hc with hi | hs
          · exact hSub t hi
          · rw [hStab hf' t (Or.inl (List.mem_cons_self t rest')), hs]
        have hck2 : (toggleChecked r.1 t).checked t = false := by
          simp [toggleChecked, setFlag, hckt]
        have hrec : managePlots (k + 1) (toggleChecked r.1 t) t =
            uncheckedRun (toggleChecked r.1 t) :=
          managePlots_unchecked k _ t hck2
        obtain ⟨hu1, hu2, hu3, hu4⟩ := uncheckedRun_spec (toggleChecked r.1 t)
        have hstep : stepExC (fun σ2 l2 => managePlots (k + 1) σ2 l2) sn r t =
            uncheckedRun (toggleChecked r.1 t) := by
          unfold stepExC
          rw [if_neg (by simp [hf']), if_pos hc]
          simp only [hrec]
        rw [hstep]
        have hchk2all : ∀ x, x ≠ t →
            (toggleChecked r.1 t).checked x = r.1.checked x := by
          intro x hx
          simp [toggleChecked, setFlag, hx]
        have hnewSub : SubP (uncheckedRun (toggleChecked r.1 t)).1 := by
          intro p hp
          rw [hu1]
          exact (hu4 p hp).1
        have hnewOnly : OnlyP (uncheckedRun (toggleChecked r.1 t)).1 :=
          fun p hp => (hu4 p hp).2.1
        refine ih hsub' hndc.2 _ hnewSub hnewOnly (Or.inl hu3) ?_
        intro _ x hx
        have hxt : x ≠ t := by
          intro heq
          rcases hx with hx | hx
          · exact hndc.1 (heq ▸ hx)
          · exact hx (by rw [heq]; exact hsub t (List.mem_cons_self t rest'))
        rw [hu1, hchk2all x hxt]
        have hx2 : x ∈ t :: rest' ∨ x ∉ GW_SERIES_EXCLUDED := by
          rcases hx with hx | hx
          · exact Or.inl (List.mem_cons_of_mem t hx)
          · exact Or.inr hx
        exact hStab hf' x hx2
      · have hstep : stepExC (fun σ2 l2 => managePlots (k + 1) σ2 l2) sn r t = r := by
          unfold stepExC
          rw [if_neg (by simp [hf']), if_neg hc]
        rw [hstep]
        refine ih hsub' hndc.2 r hSub hOnly ?_ ?_
        · rcases hAll with h | ⟨hmem, hr2⟩
          · exact Or.inl h
          · rcases List.mem_cons.mp hmem with heq | hmem'
            · left
              have hq : r.1.isplotted t = false := by
                rcases hq : r.1.isplotted t with _ | _
                · rfl
                · exact absurd (by rw [hq]; simp : (r.1.isplotted t || sn t) = true) hc
              rw [← heq] at hq
              exact hq
            · exact Or.inr ⟨hmem', hr2⟩
        · intro hr2 x hx
          have hx2 : x ∈ t :: rest' ∨ x ∉ GW_SERIES_EXCLUDED := by
            rcases hx with hx | hx
            · exact Or.inl (List.mem_cons_of_mem t hx)
            · exact Or.inr hx
          exact hStab hr2 x hx2

/-- Walk of the 'all'-branch deactivation loop (lines 1117-1123), which
also clears the local ischecked entries of every label it unchecks. If
no exception is raised and the loop never fired, do_replot stays down and
every non-clicked checkbox label ends unplotted and unchecked. -/
theorem exA_walk (k : ℕ) (clicked : String) (cv sv : Bool) :
    ∀ (rest : List String), (∀ x ∈ rest, x ∈ CHKBOX_LABELS) → rest.Nodup →
    ∀ acc : (String → Bool) × (PlotState × Bool),
      SubP acc.2.1 → OnlyP acc.2.1 → acc.2.1.isplotted "all" = false →
      acc.2.1.checked clicked = cv → acc.1 clicked = sv →
      (acc.2.2 = false → ∀ x ∈ rest, x ≠ clicked → acc.2.1.checked x = acc.1 x) →
      ((acc.2.2 = false ∧ acc.2.1.do_replot = false) →
        ∀ x ∈ CHKBOX_LABELS, x ∉ rest → x ≠ clicked →
          acc.2.1.isplotted x = false ∧ acc.2.1.checked x = false) →
      let res := rest.foldl (stepA (fun σ2 l2 => managePlots (k + 1) σ2 l2) clicked) acc
      (SubP res.2.1 ∧ OnlyP res.2.1) ∧ res.2.1.isplotted "all" = false ∧
      res.2.1.checked clicked = cv ∧ res.1 clicked = sv ∧
      ((res.2.2 = false ∧ res.2.1.do_replot = false) →
        ∀ x ∈ CHKBOX_LABELS, x ≠ clicked →
          res.2.1.isplotted x = false ∧ res.2.1.checked x = false) := by
  intro rest
  induction rest with
  | nil =>
    intro _ _ acc hSub hOnly hAll hcv hsv _ hNFC
    exact ⟨⟨hSub, hOnly⟩, hAll, hcv, hsv,
      fun hpair x hx hxc => hNFC hpair x hx (by simp) hxc⟩
  | cons t rest' ih =>
    intro hsub hnd acc hSub hOnly hAll hcv hsv hStab hNFC
    have hndc := List.nodup_cons.mp hnd
    have hsub' : ∀ x ∈ rest', x ∈ CHKBOX_LABELS :=
      fun x hx => hsub x (List.mem_cons_of_mem t hx)
    rw [List.foldl_cons]
    by_cases hflag : acc.2.2 = true
    · have hstep : stepA (fun σ2 l2 => managePlots (k + 1) σ2 l2) clicked acc t = acc := by
        unfold stepA
        rw [if_pos hflag]
      rw [hstep]
      refine ih hsub' hndc.2 acc hSub hOnly hAll hcv hsv ?_ ?_
      · intro h2
        rw [hflag] at h2
        exact absurd h2 (by simp)
      · intro hpair
        rw [hflag] at hpair
        exact absurd hpair.1 (by simp)
    · have hf' : acc.2.2 = false := by simpa using hflag
      by_cases hcond : t ≠ clicked ∧ (acc.2.1.isplotted t || acc.1 t) = true
      · obtain ⟨htc, hor⟩ := hcond
        have hckt : acc.2.1.checked t = true := by
          rcases (Bool.or_eq_true _ _).mp hor with hi | hs
          · exact hSub t hi
          · rw [hStab hf' t (List.mem_cons_self t rest') htc, hs]
        have hck2 : (toggleChecked acc.2.1 t).checked t = false := by
          simp [toggleChecked, setFlag, hckt]
        have hrec : managePlots (k + 1) (toggleChecked acc.2.1 t) t =
            uncheckedRun (toggleChecked acc.2.1 t) :=
          managePlots_unchecked k _ t hck2
        obtain ⟨hu1, hu2, hu3, hu4⟩ := uncheckedRun_spec (toggleChecked acc.2.1 t)
        have hstep : stepA (fun σ2 l2 => managePlots (k + 1) σ2 l2) clicked acc t =
            (let r2 := uncheckedRun (toggleChecked acc.2.1 t)
             if r2.2 = true then (setFlag acc.1 t false, r2)
             else (setFlag acc.1 t false, ({ r2.1 with do_replot := true }, false))) := by
          unfold stepA
          rw [if_neg (by simp [hf']), if_pos ⟨htc, hor⟩]
          simp only [hrec]
        rw [hstep]
        have hchk2all : ∀ x, x ≠ t →
            (toggleChecked acc.2.1 t).checked x = acc.2.1.checked x := by
          intro x hx
          simp [toggleChecked, setFlag, hx]
        have hnewSub : SubP (uncheckedRun (toggleChecked acc.2.1 t)).1 := by
          intro p hp
          rw [hu1]
          exact (hu4 p hp).1
        have hnewOnly : OnlyP (uncheckedRun (toggleChecked acc.2.1 t)).1 :=
          fun p hp => (hu4 p hp).2.1
        have hnewcv : (uncheckedRun (toggleChecked acc.2.1 t)).1.checked clicked = cv := by
          rw [hu1, hchk2all clicked (fun h => htc h.symm)]
          exact hcv
        have hnewsv : setFlag acc.1 t false clicked = sv := by
          rw [setFlag]
          rw [if_neg (fun h => htc h.symm)]
          exact hsv
        have hnewStab : ∀ x ∈ rest', x ≠ clicked →
            (uncheckedRun (toggleChecked acc.2.1 t)).1.checked x =
              setFlag acc.1 t false x := by
          intro x hx hxc
          have hxt : x ≠ t := fun heq => hndc.1 (heq ▸ hx)
          rw [hu1, hchk2all x hxt, setFlag, if_neg hxt]
          exact hStab hf' x (List.mem_cons_of_mem t hx) hxc
        by_cases hflag2 : (uncheckedRun (toggleChecked acc.2.1 t)).2 = true
        · simp only [hflag2, if_true]
          refine ih hsub' hndc.2 _ hnewSub hnewOnly hu3 hnewcv hnewsv ?_ ?_
          · intro h2
            rw [hflag2] at h2
            exact absurd h2 (by simp)
          · intro hpair
            rw [hflag2] at hpair
            exact absurd hpair.1 (by simp)
        · simp only [hflag2, if_false, Bool.false_eq_true]
          refine ih hsub' hndc.2 _ hnewSub hnewOnly hu3 hnewcv hnewsv ?_ ?_
          · intro _ x hx hxc
            exact hnewStab x hx hxc
          · intro hpair
            exact absurd hpair.2 (by simp)
      · have hstep : stepA (fun σ2 l2 => managePlots (k + 1) σ2 l2) clicked acc t = acc := by
          unfold stepA
          rw [if_neg (by simp [hf']), if_neg hcond]
        rw [hstep]
        refine ih hsub' hndc.2 acc hSub hOnly hAll hcv hsv ?_ ?_
        · intro h2 x hx hxc
          exact hStab h2 x (List.mem_cons_of_mem t hx) hxc
        · intro hpair x hxmem hxrest hxc
          by_cases hxeqt : x = t
          · subst hxeqt
            have hnor : ¬((acc.2.1.isplotted x || acc.1 x) = true) := by
              intro hh
              exact hcond ⟨fun heq => hxc heq, hh⟩
            have hio : acc.2.1.isplotted x = false ∧ acc.1 x = false := by
              constructor
              · rcases hq : acc.2.1.isplotted x with _ | _
                · rfl
                · exact absurd (by rw [hq]; simp : (acc.2.1.isplotted x || acc.1 x) = true) hnor
              · rcases hq : acc.1 x with _ | _
                · rfl
                · exact absurd (by rw [hq]; simp : (acc.2.1.isplotted x || acc.1 x) = true) hnor
            refine ⟨hio.1, ?_⟩
            rw [hStab hpair.1 x (List.mem_cons_self x rest') hxc]
            exact hio.2
          · exact hNFC hpair x hxmem
              (by intro hh; rcases List.mem_cons.mp hh with h | h;
                  exact hxeqt h; exact hxrest h) hxc

/-- A fold whose step returns its input unchanged once the exception flag
is up never moves past a flagged state. -/
theorem foldl_stuck {α : Type} (f : PlotState × Bool → α → PlotState × Bool)
    (hf : ∀ r x, r.2 = true → f r x = r) :
    ∀ (labs : List α) (r : PlotState × Bool), r.2 = true → labs.foldl f r = r := by
  intro labs
  induction labs with
  | nil => intro r _; rfl
  | cons x xs ih =>
    intro r hr
    rw [List.foldl_cons, hf r x hr]
    exact ih r hr

theorem stepRepB_stuck (sn : String → Bool) :
    ∀ (r : PlotState × Bool) (lab : String), r.2 = true → stepRepB sn r lab = r := by
  intro r lab hr
  unfold stepRepB
  rw [if_pos hr]

theorem stepRepC_stuck (sn : String → Bool) :
    ∀ (r : PlotState × Bool) (lab : String), r.2 = true → stepRepC sn r lab = r := by
  intro r lab hr
  unfold stepRepC
  rw [if_pos hr]

/-- Refinement of RepStepOk: a newly drawn label moreover lies in the
branch's inclusive list L. -/
def RepStepOkIn (L : List String) (sn : String → Bool) (r r2 : PlotState × Bool) : Prop :=
  r2.1.checked = r.1.checked ∧ r2.1.do_replot = r.1.do_replot ∧
  ∀ p, r2.1.isplotted p = true →
    r.1.isplotted p = true ∨
      (sn p = true ∧ p ∈ L ∧ p ∈ PLOT_KEYS ∧ p ≠ "all")

theorem repStepOkIn_refl (L : List String) (sn : String → Bool) (r : PlotState × Bool) :
    RepStepOkIn L sn r r :=
  ⟨rfl, rfl, fun _ h => Or.inl h⟩

theorem repStepOkIn_plot (L : List String) (sn : String → Bool) (r : PlotState × Bool)
    (lab : String) (hsn : sn lab = true) (hL : lab ∈ L) (hkeys : lab ∈ PLOT_KEYS)
    (hnall : lab ≠ "all") {b : Bool} :
    RepStepOkIn L sn r (plotSeries lab r.1, b) := by
  refine ⟨rfl, rfl, fun p hp => ?_⟩
  rcases plotSeries_isplotted_true lab r.1 p hp with rfl | h
  · exact Or.inr ⟨hsn, hL, hkeys, hnall⟩
  · exact Or.inl h

theorem stepRepB_soundIn (sn : String → Bool) (r : PlotState × Bool) (lab : String) :
    RepStepOkIn ALL_INCLUSIVE sn r (stepRepB sn r lab) := by
  unfold stepRepB
  by_cases hf : r.2 = true
  · rw [if_pos hf]
    exact repStepOkIn_refl _ sn r
  · rw [if_neg hf]
    by_cases hc1 : (sn lab && ALL_INCLUSIVE.contains lab && !r.1.isplotted lab) = true
    · rw [if_pos hc1]
      have hparts := (Bool.and_eq_true _ _).mp hc1
      have hin : lab ∈ ALL_INCLUSIVE :=
        List.elem_iff.mp ((Bool.and_eq_true _ _).mp hparts.1).2
      have hsn : sn lab = true := ((Bool.and_eq_true _ _).mp hparts.1).1
      rcases callPlot_cases lab r.1 with hcall | ⟨hcall, hmem⟩
      · rw [hcall]
        exact repStepOkIn_refl _ sn r
      · have hkeys : lab ∈ PLOT_KEYS := by
          rcases hmem with h | h | h
          · exact h
          · exact absurd (h ▸ hin) (by decide)
          · exact absurd (h ▸ hin) (by decide)
        have hnall : lab ≠ "all" := fun hh => absurd (hh ▸ hin) (by decide)
        rw [hcall]
        exact repStepOkIn_plot _ sn r lab hsn hin hkeys hnall
    · rw [if_neg hc1]
      exact repStepOkIn_refl _ sn r

theorem stepRepC_soundIn (sn : String → Bool) (r : PlotState × Bool) (lab : String) :
    RepStepOkIn GW_SERIES_INCLUSIVE sn r (stepRepC sn r lab) := by
  unfold stepRepC
  by_cases hf : r.2 = true
  · rw [if_pos hf]
    exact repStepOkIn_refl _ sn r
  · rw [if_neg hf]
    by_cases hc1 : (sn lab && GW_SERIES_INCLUSIVE.contains lab && !r.1.isplotted lab) = true
    · rw [if_pos hc1]
      have hparts := (Bool.and_eq_true _ _).mp hc1
      have hin : lab ∈ GW_SERIES_INCLUSIVE :=
        List.elem_iff.mp ((Bool.and_eq_true _ _).mp hparts.1).2
      have hsn : sn lab = true := ((Bool.and_eq_true _ _).mp hparts.1).1
      rcases callPlot_cases lab r.1 with hcall | ⟨hcall, hmem⟩
      · rw [hcall]
        exact repStepOkIn_refl _ sn r
      · have hkeys : lab ∈ PLOT_KEYS := by
          rcases hmem with h | h | h
          · exact h
          · exact absurd (h ▸ hin) (by decide)
          · exact absurd (h ▸ hin) (by decide)
        have hnall : lab ≠ "all" := fun hh => absurd (hh ▸ hin) (by decide)
        rw [hcall]
        exact repStepOkIn_plot _ sn r lab hsn hin hkeys hnall
    · rw [if_neg hc1]
      exact repStepOkIn_refl _ sn r

/-- Folding any replot loop whose step satisfies RepStepOkIn keeps the
invariant, provided every member of L the snapshot marks checked is still
checked in the base state. -/
theorem repFoldIn_inv (L : List String) (sn : String → Bool)
    (step : (String → Bool) → PlotState × Bool → String → PlotState × Bool)
    (hsound : ∀ r lab, RepStepOkIn L sn r (step sn r lab))
    (labs : List String) (base : PlotState × Bool)
    (hchk : ∀ p, sn p = true → p ∈ L → base.1.checked p = true)
    (hSub : SubP base.1) (hOnly : OnlyP base.1)
    (hall : base.1.isplotted "all" = false) :
    (labs.foldl (step sn) base).1.checked = base.1.checked ∧
    SubP (labs.foldl (step sn) base).1 ∧ OnlyP (labs.foldl (step sn) base).1 ∧
    (labs.foldl (step sn) base).1.isplotted "all" = false := by
  refine foldl_preserve (fun r => r.1.checked = base.1.checked ∧ SubP r.1 ∧
    OnlyP r.1 ∧ r.1.isplotted "all" = false) (step sn) labs base
    ⟨rfl, hSub, hOnly, hall⟩ ?_
  intro r lab _ hr
  obtain ⟨hs1, hs2, hs3⟩ := hsound r lab
  refine ⟨hs1.trans hr.1, ?_, ?_, ?_⟩
  · intro p hp
    rcases hs3 p hp with h | ⟨ha, hb, _, _⟩
    · rw [hs1]
      exact hr.2.1 p h
    · rw [hs1, hr.1]
      exact hchk p ha hb
  · intro p hp
    rcases hs3 p hp with h | ⟨_, _, hc, _⟩
    · exact hr.2.2.1 p h
    · exact hc
  · cases hq : (step sn r lab).1.isplotted "all" with
    | false => rfl
    | true =>
      rcases hs3 "all" hq with h | ⟨_, _, _, hd⟩
      · rw [hr.2.2.2] at h
        exact absurd h (by simp)
      · exact absurd rfl hd

/-- resetIfReplot keeps the checkbox status and only removes drawn
series. -/
theorem resetIfReplot_spec (σ : PlotState) :
    (resetIfReplot σ).checked = σ.checked ∧
    ∀ p, (resetIfReplot σ).isplotted p = true → σ.isplotted p = true := by
  unfold resetIfReplot
  by_cases h : σ.do_replot = true
  · rw [if_pos h]
    exact ⟨rfl, fun p hp => absurd hp (by simp [reset_plots])⟩
  · rw [if_neg h]
    exact ⟨rfl, fun p hp => hp⟩

theorem inclusive_not_excluded : ∀ p ∈ ALL_INCLUSIVE, p ∉ ALL_EXCLUDED := by
  decide

theorem gw_inclusive_not_excluded :
    ∀ p ∈ GW_SERIES_INCLUSIVE, p ∉ GW_SERIES_EXCLUDED := by
  decide

theorem plot_keys_sub_chkbox : ∀ p ∈ PLOT_KEYS, p ∈ CHKBOX_LABELS := by
  decide

/-- blockA skips when the clicked label stays checked but is not 'all'. -/
theorem blockA_pass (recur : PlotState → String → PlotState × Bool) (l : String)
    (sn0 : String → Bool) (σ0 : PlotState) (hne : l ≠ "all") (hchk : sn0 l = true) :
    blockA recur l sn0 σ0 = (sn0, (σ0, false)) := by
  unfold blockA
  rw [if_neg (fun hpair => hne hpair.1), if_neg (by simp [hchk])]

theorem blockB_pass (recur : PlotState → String → PlotState × Bool) (l : String)
    (sn : String → Bool) (r0 : PlotState × Bool)
    (hni : ALL_INCLUSIVE.contains l = false) (hchk : sn l = true) :
    blockB recur l sn r0 = r0 := by
  unfold blockB
  rw [if_neg (by rw [hni]; simp), if_neg (by simp [hchk])]

theorem blockC_pass (recur : PlotState → String → PlotState × Bool) (l : String)
    (sn : String → Bool) (r0 : PlotState × Bool)
    (hne : (l == "gw_series") = false) (hchk : sn l = true) :
    blockC recur l sn r0 = r0 := by
  unfold blockC
  rw [if_neg (by simp [hne]), if_neg (by simp [hchk])]

theorem blockD_pass (recur : PlotState → String → PlotState × Bool) (l : String)
    (sn : String → Bool) (r0 : PlotState × Bool)
    (hne : (l == "fgrpG1_freq") = false) :
    blockD recur l sn r0 = r0 := by
  unfold blockD
  rw [if_neg (by simp [hne])]

theorem blockE_pass (recur : PlotState → String → PlotState × Bool) (l : String)
    (sn : String → Bool) (r0 : PlotState × Bool)
    (hne : (l == "gw_O3_freq") = false) :
    blockE recur l sn r0 = r0 := by
  unfold blockE
  rw [if_neg (by simp [hne])]

/-- Selecting a label whose every manage_plots branch guard is false is a
pure no-op of the handler. -/
theorem sel_passthrough (l : String) (σ2 : PlotState) (hchk : σ2.checked l = true)
    (hf1 : l ≠ "all") (hf2 : ALL_INCLUSIVE.contains l = false)
    (hf3 : (l == "gw_series") = false) (hf4 : (l == "fgrpG1_freq") = false)
    (hf5 : (l == "gw_O3_freq") = false) :
    managePlots (Nat.succ 5) σ2 l = (σ2, false) := by
  have hstep : managePlots (Nat.succ 5) σ2 l =
      (let recur := fun s2 l2 => managePlots (4 + 1) s2 l2
       let a := blockA recur l σ2.checked σ2
       let r2 := blockB recur l a.1 a.2
       let r3 := blockC recur l a.1 r2
       let r4 := blockD recur l a.1 r3
       blockE recur l a.1 r4) := rfl
  rw [hstep]
  simp only [blockA_pass _ l σ2.checked σ2 hf1 hchk,
    blockB_pass _ l σ2.checked _ hf2 hchk, blockC_pass _ l σ2.checked _ hf3 hchk,
    blockD_pass _ l σ2.checked _ hf4, blockE_pass _ l σ2.checked _ hf5]

/-- Drawing 'all' onto a state with an empty drawn set yields an
invariant state provided 'all' is checked. -/
theorem invp_plotSeries_all (σ2 : PlotState) (hchk : σ2.checked "all" = true)
    (hempty : ∀ p, σ2.isplotted p = false) : InvP (plotSeries "all" σ2) := by
  refine ⟨?_, ?_, ?_⟩
  · intro p hp
    by_cases hpe : p = "all"
    · subst hpe
      simpa [plotSeries] using hchk
    · exfalso
      simp only [plotSeries, setFlag] at hp
      rw [if_neg hpe] at hp
      rw [hempty p] at hp
      exact absurd hp (by simp)
  · intro p hp
    by_cases hpe : p = "all"
    · subst hpe
      decide
    · exfalso
      simp only [plotSeries, setFlag] at hp
      rw [if_neg hpe] at hp
      rw [hempty p] at hp
      exact absurd hp (by simp)
  · intro _ q hq
    simp only [plotSeries, setFlag]
    rw [if_neg hq]
    exact hempty q

/-- The 'all' selection branch re-establishes the invariant: the
deactivation loop unchecks everything else through re-entrant deselect
calls, then 'all' alone is drawn (or the loop's state is kept when the
interpreter flags an exception). -/
theorem sel_all (σ2 : PlotState) (hSub : SubP σ2) (hOnly : OnlyP σ2)
    (hchk : σ2.checked "all" = true) (hall : σ2.isplotted "all" = false) :
    InvP (managePlots (Nat.succ 5) σ2 "all").1 := by
  have hstep : managePlots (Nat.succ 5) σ2 "all" =
      (let recur := fun s2 l2 => managePlots (4 + 1) s2 l2
       let a := blockA recur "all" σ2.checked σ2
       let r2 := blockB recur "all" a.1 a.2
       let r3 := blockC recur "all" a.1 r2
       let r4 := blockD recur "all" a.1 r3
       blockE recur "all" a.1 r4) := rfl
  have hA : blockA (fun s2 l2 => managePlots (4 + 1) s2 l2) "all" σ2.checked σ2 =
      (let acc := CHKBOX_LABELS.foldl
        (stepA (fun s2 l2 => managePlots (4 + 1) s2 l2) "all") (σ2.checked, (σ2, false))
       let r2 := seqMap acc.2 resetIfReplot
       (acc.1, seqMap r2 (plotSeries "all"))) := by
    unfold blockA
    rw [if_pos ⟨rfl, hchk⟩]
  obtain ⟨⟨hSubA, hOnlyA⟩, hallA, hcvA, hsvA, hNFCA⟩ :=
    exA_walk 4 "all" true true CHKBOX_LABELS (fun x hx => hx) (by decide)
      (σ2.checked, (σ2, false)) hSub hOnly hall hchk hchk
      (fun _ x _ _ => rfl) (fun _ x hx hnx _ => absurd hx hnx)
  set acc := CHKBOX_LABELS.foldl
    (stepA (fun s2 l2 => managePlots (4 + 1) s2 l2) "all") (σ2.checked, (σ2, false))
    with hacc
  rw [hstep]
  simp only [hA]
  rw [blockB_pass _ "all" acc.1 _ (by decide) hsvA,
    blockC_pass _ "all" acc.1 _ (by decide) hsvA,
    blockD_pass _ "all" acc.1 _ (by decide),
    blockE_pass _ "all" acc.1 _ (by decide)]
  by_cases hflag : acc.2.2 = true
  · have h1 : seqMap acc.2 resetIfReplot = acc.2 := by
      unfold seqMap
      rw [if_pos hflag]
    rw [h1]
    have h2 : seqMap acc.2 (plotSeries "all") = acc.2 := by
      unfold seqMap
      rw [if_pos hflag]
    rw [h2]
    refine ⟨hSubA, hOnlyA, ?_⟩
    intro hcontra
    rw [hallA] at hcontra
    exact absurd hcontra (by simp)
  · have hflag' : acc.2.2 = false := by simpa using hflag
    have h1 : seqMap acc.2 resetIfReplot = (resetIfReplot acc.2.1, false) := by
      unfold seqMap
      rw [if_neg hflag]
    rw [h1]
    have h2 : seqMap ((resetIfReplot acc.2.1 : PlotState), false) (plotSeries "all") =
        (plotSeries "all" (resetIfReplot acc.2.1), false) := by
      unfold seqMap
      rw [if_neg (by simp)]
    rw [h2]
    by_cases hdrp : acc.2.1.do_replot = true
    · have hreset : resetIfReplot acc.2.1 =
          { (reset_plots acc.2.1) with do_replot := false } := by
        unfold resetIfReplot
        rw [if_pos hdrp]
      rw [hreset]
      exact invp_plotSeries_all _ (by simp [reset_plots]; exact hcvA)
        (fun p => by simp [reset_plots])
    · have hdrp' : acc.2.1.do_replot = false := by simpa using hdrp
      have hreset : resetIfReplot acc.2.1 = acc.2.1 := by
        unfold resetIfReplot
        rw [if_neg hdrp]
      rw [hreset]
      refine invp_plotSeries_all acc.2.1 hcvA ?_
      intro p
      by_cases hpe : p = "all"
      · subst hpe
        exact hallA
      · by_cases hq : acc.2.1.isplotted p = true
        · have hkeys := hOnlyA p hq
          have hin : p ∈ CHKBOX_LABELS := plot_keys_sub_chkbox p hkeys
          exact (hNFCA ⟨hflag', hdrp'⟩ p hin hpe).1
        · simpa using hq
/-- Selecting an inclusive label re-establishes the invariant: the
ALL_EXCLUDED loop unchecks the exclusive selections through re-entrant
deselect calls, the canvas is reset if a replot is pending, and the
replot loop draws only checked inclusive series. -/
theorem sel_inclusive (l : String) (hL : l ∈ ALL_INCLUSIVE) (σ2 : PlotState)
    (hSub : SubP σ2) (hOnly : OnlyP σ2) (hchk : σ2.checked l = true) :
    InvP (managePlots (Nat.succ 5) σ2 l).1 := by
  have hfacts : l ≠ "all" ∧ ALL_INCLUSIVE.contains l = true ∧
      (l == "gw_series") = false ∧ (l == "fgrpG1_freq") = false ∧
      (l == "gw_O3_freq") = false := by
    fin_cases hL <;> exact ⟨by decide, by decide, by decide, by decide, by decide⟩
  obtain ⟨hf1, hf2, hf3, hf4, hf5⟩ := hfacts
  have hstep : managePlots (Nat.succ 5) σ2 l =
      (let recur := fun s2 l2 => managePlots (4 + 1) s2 l2
       let a := blockA recur l σ2.checked σ2
       let r2 := blockB recur l a.1 a.2
       let r3 := blockC recur l a.1 r2
       let r4 := blockD recur l a.1 r3
       blockE recur l a.1 r4) := rfl
  have hB : blockB (fun s2 l2 => managePlots (4 + 1) s2 l2) l σ2.checked (σ2, false) =
      (let r1 := ALL_EXCLUDED.foldl
        (stepExB (fun s2 l2 => managePlots (4 + 1) s2 l2) σ2.checked) (σ2, false)
       let r2 := seqMap r1 resetIfReplot
       CHKBOX_LABELS.foldl (stepRepB σ2.checked) r2) := by
    unfold blockB
    rw [if_pos (by rw [hf2, hchk]; rfl)]
    simp [seqOk]
  obtain ⟨⟨hSubB, hOnlyB⟩, hallB, hStabB⟩ :=
    exB_walk 4 σ2.checked ALL_EXCLUDED (fun x hx => hx) (by decide) (σ2, false)
      hSub hOnly (Or.inr ⟨by decide, rfl⟩) (fun _ x _ => rfl)
  set r1 := ALL_EXCLUDED.foldl
    (stepExB (fun s2 l2 => managePlots (4 + 1) s2 l2) σ2.checked) (σ2, false) with hr1
  rw [hstep]
  simp only [blockA_pass _ l σ2.checked σ2 hf1 hchk, hB]
  by_cases hfB : r1.2 = true
  · have h1 : seqMap r1 resetIfReplot = r1 := by
      unfold seqMap
      rw [if_pos hfB]
    rw [h1, foldl_stuck (stepRepB σ2.checked) (stepRepB_stuck σ2.checked)
      CHKBOX_LABELS r1 hfB]
    rw [blockC_pass _ l σ2.checked r1 hf3 hchk, blockD_pass _ l σ2.checked r1 hf4,
      blockE_pass _ l σ2.checked r1 hf5]
    refine ⟨hSubB, hOnlyB, ?_⟩
    intro hcontra
    rw [hallB] at hcontra
    exact absurd hcontra (by simp)
  · have hfB' : r1.2 = false := by simpa using hfB
    have h1 : seqMap r1 resetIfReplot = (resetIfReplot r1.1, false) := by
      unfold seqMap
      rw [if_neg hfB]
    rw [h1]
    obtain ⟨hrr1, hrr2⟩ := resetIfReplot_spec r1.1
    have hchk_in : ∀ p, σ2.checked p = true → p ∈ ALL_INCLUSIVE →
        ((resetIfReplot r1.1 : PlotState), false).1.checked p = true := by
      intro p hp hpin
      show (resetIfReplot r1.1).checked p = true
      rw [hrr1, hStabB hfB' p (inclusive_not_excluded p hpin)]
      exact hp
    obtain ⟨hres1, hres2, hres3, hres4⟩ :=
      repFoldIn_inv ALL_INCLUSIVE σ2.checked stepRepB (stepRepB_soundIn σ2.checked)
        CHKBOX_LABELS ((resetIfReplot r1.1 : PlotState), false) hchk_in
        (fun p hp => by
          show (resetIfReplot r1.1).checked p = true
          rw [hrr1]
          exact hSubB p (hrr2 p hp))
        (fun p hp => hOnlyB p (hrr2 p hp))
        (by
          cases hq : (resetIfReplot r1.1).isplotted "all" with
          | false => rfl
          | true => exact absurd (hrr2 "all" hq) (by rw [hallB]; simp))
    set res := CHKBOX_LABELS.foldl (stepRepB σ2.checked)
      ((resetIfReplot r1.1 : PlotState), false) with hres
    rw [blockC_pass _ l σ2.checked res hf3 hchk, blockD_pass _ l σ2.checked res hf4,
      blockE_pass _ l σ2.checked res hf5]
    refine ⟨hres2, hres3, ?_⟩
    intro hcontra
    rw [hres4] at hcontra
    exact absurd hcontra (by simp)
/-- Selecting gw_series re-establishes the invariant: the
GW_SERIES_EXCLUDED loop unchecks the conflicting selections through
re-entrant deselect calls, then the replot loop draws only checked
gw_series-inclusive series. -/
theorem sel_gwseries (σ2 : PlotState) (hSub : SubP σ2) (hOnly : OnlyP σ2)
    (hchk : σ2.checked "gw_series" = true) :
    InvP (managePlots (Nat.succ 5) σ2 "gw_series").1 := by
  have hstep : managePlots (Nat.succ 5) σ2 "gw_series" =
      (let recur := fun s2 l2 => managePlots (4 + 1) s2 l2
       let a := blockA recur "gw_series" σ2.checked σ2
       let r2 := blockB recur "gw_series" a.1 a.2
       let r3 := blockC recur "gw_series" a.1 r2
       let r4 := blockD recur "gw_series" a.1 r3
       blockE recur "gw_series" a.1 r4) := rfl
  have hC : blockC (fun s2 l2 => managePlots (4 + 1) s2 l2) "gw_series" σ2.checked
      (σ2, false) =
      (let r1 := GW_SERIES_EXCLUDED.foldl
        (stepExC (fun s2 l2 => managePlots (4 + 1) s2 l2) σ2.checked) (σ2, false)
       CHKBOX_LABELS.foldl (stepRepC σ2.checked) r1) := by
    unfold blockC
    rw [if_pos (by rw [hchk]; rfl)]
    simp [seqOk]
  obtain ⟨⟨hSubC, hOnlyC⟩, hallC, hStabC⟩ :=
    exC_walk 4 σ2.checked GW_SERIES_EXCLUDED (fun x hx => hx) (by decide) (σ2, false)
      hSub hOnly (Or.inr ⟨by decide, rfl⟩) (fun _ x _ => rfl)
  set r1 := GW_SERIES_EXCLUDED.foldl
    (stepExC (fun s2 l2 => managePlots (4 + 1) s2 l2) σ2.checked) (σ2, false) with hr1
  rw [hstep]
  simp only [blockA_pass _ "gw_series" σ2.checked σ2 (by decide) hchk,
    blockB_pass _ "gw_series" σ2.checked _ (by decide) hchk, hC]
  by_cases hfC : r1.2 = true
  · rw [foldl_stuck (stepRepC σ2.checked) (stepRepC_stuck σ2.checked)
      CHKBOX_LABELS r1 hfC]
    rw [blockD_pass _ "gw_series" σ2.checked r1 (by decide),
      blockE_pass _ "gw_series" σ2.checked r1 (by decide)]
    refine ⟨hSubC, hOnlyC, ?_⟩
    intro hcontra
    rw [hallC] at hcontra
    exact absurd hcontra (by simp)
  · have hfC' : r1.2 = false := by simpa using hfC
    have hchk_in : ∀ p, σ2.checked p = true → p ∈ GW_SERIES_INCLUSIVE →
        r1.1.checked p = true := by
      intro p hp hpin
      rw [hStabC hfC' p (gw_inclusive_not_excluded p hpin)]
      exact hp
    obtain ⟨hres1, hres2, hres3, hres4⟩ :=
      repFoldIn_inv GW_SERIES_INCLUSIVE σ2.checked stepRepC
        (stepRepC_soundIn σ2.checked) CHKBOX_LABELS r1 hchk_in hSubC hOnlyC hallC
    set res := CHKBOX_LABELS.foldl (stepRepC σ2.checked) r1 with hres
    rw [blockD_pass _ "gw_series" σ2.checked res (by decide),
      blockE_pass _ "gw_series" σ2.checked res (by decide)]
    refine ⟨hres2, hres3, ?_⟩
    intro hcontra
    rw [hres4] at hcontra
    exact absurd hcontra (by simp)

/-- Every user toggle preserves the controller invariant. A deselect runs
the recursion-free deselect flow; a select dispatches on the clicked
label. -/
theorem userToggle_invp (σ2 : PlotState) (l : String) (h : InvP σ2) :
    InvP (userToggleR σ2 l).1 := by
  by_cases hmem : CHKBOX_LABELS.contains l = true
  · rw [userToggleR, if_pos hmem]
    by_cases hck : (toggleChecked σ2 l).checked l = true
    · -- select: the toggle flipped the box from unchecked to checked
      have hck0 : σ2.checked l = false := by
        by_cases hq : σ2.checked l = true
        · exfalso
          rw [show (toggleChecked σ2 l).checked l = !(σ2.checked l) by
            simp [toggleChecked, setFlag], hq] at hck
          exact absurd hck (by simp)
        · simpa using hq
      have hSub2 : SubP (toggleChecked σ2 l) := by
        intro p hp
        by_cases hpe : p = l
        · subst hpe
          exact hck
        · show (toggleChecked σ2 l).checked p = true
          rw [show (toggleChecked σ2 l).checked p = σ2.checked p by
            simp [toggleChecked, setFlag, hpe]]
          exact h.1 p hp
      have hOnly2 : OnlyP (toggleChecked σ2 l) := fun p hp => h.2.1 p hp
      have hmem' : l ∈ CHKBOX_LABELS := List.elem_iff.mp hmem
      have hFUEL : managePlots FUEL (toggleChecked σ2 l) l =
          managePlots (Nat.succ 5) (toggleChecked σ2 l) l := rfl
      rw [hFUEL]
      simp only [CHKBOX_LABELS, List.mem_cons, List.not_mem_nil, or_false] at hmem'
      rcases hmem' with rfl | rfl | rfl | rfl | rfl | rfl | rfl | rfl | rfl | rfl | rfl
      · -- 'all'
        have hall2 : (toggleChecked σ2 "all").isplotted "all" = false := by
          show σ2.isplotted "all" = false
          by_cases hq : σ2.isplotted "all" = true
          · exact absurd (h.1 "all" hq) (by rw [hck0]; simp)
          · simpa using hq
        exact sel_all (toggleChecked σ2 "all") hSub2 hOnly2 hck hall2
      · exact sel_inclusive "fgrp5" (by decide) _ hSub2 hOnly2 hck
      · exact sel_inclusive "fgrpG1" (by decide) _ hSub2 hOnly2 hck
      · -- fgrp_hz: every branch guard is false
        rw [sel_passthrough "fgrp_hz" _ hck (by decide) (by decide) (by decide)
          (by decide) (by decide)]
        exact ⟨hSub2, hOnly2, fun hq p hp => h.2.2 hq p hp⟩
      · exact sel_inclusive "gw_O3" (by decide) _ hSub2 hOnly2 hck
      · exact sel_inclusive "gw_O2" (by decide) _ hSub2 hOnly2 hck
      · exact sel_gwseries _ hSub2 hOnly2 hck
      · exact sel_inclusive "brp4" (by decide) _ hSub2 hOnly2 hck
      · exact sel_inclusive "brp7" (by decide) _ hSub2 hOnly2 hck
      · rw [sel_passthrough "grG1hz_X_t" _ hck (by decide) (by decide) (by decide)
          (by decide) (by decide)]
        exact ⟨hSub2, hOnly2, fun hq p hp => h.2.2 hq p hp⟩
      · rw [sel_passthrough "gwO3hz_X_t" _ hck (by decide) (by decide) (by decide)
          (by decide) (by decide)]
        exact ⟨hSub2, hOnly2, fun hq p hp => h.2.2 hq p hp⟩
    · -- deselect: the handler runs the recursion-free deselect flow
      have hck' : (toggleChecked σ2 l).checked l = false := by simpa using hck
      have hFUEL : managePlots FUEL (toggleChecked σ2 l) l =
          managePlots (5 + 1) (toggleChecked σ2 l) l := rfl
      rw [hFUEL, managePlots_unchecked 5 (toggleChecked σ2 l) l hck']
      obtain ⟨hu1, hu2, hu3, hu4⟩ := uncheckedRun_spec (toggleChecked σ2 l)
      refine ⟨?_, fun p hp => (hu4 p hp).2.1, ?_⟩
      · intro p hp
        rw [hu1]
        exact (hu4 p hp).1
      · intro hcontra
        rw [hu3] at hcontra
        exact absurd hcontra (by simp)
  · rw [userToggleR, if_neg (by simpa using hmem)]
    exact h
theorem invp_plotInit : InvP plotInit :=
  ⟨fun p hp => absurd hp (by simp [plotInit]),
   fun p hp => absurd hp (by simp [plotInit]),
   fun hq => absurd hq (by simp [plotInit])⟩

theorem invp_startupState : InvP startupState := by
  have heq : startupState = (userToggleR plotInit "all").1 := by
    rw [userToggleR, if_pos (by decide)]
    rfl
  rw [heq]
  exact userToggle_invp plotInit "all" invp_plotInit

/-- C3: after any sequence of toggle events from the initial state, at
most one Exclusive-or-Detail series (the EXCLUSIVE_PLOTS group: 'all' and
the frequency/hour detail views) is marked drawn, and whenever one of
them is drawn, no other checkbox series — in particular no Inclusive
series — is drawn. -/
theorem c3_exclusive_invariant (events : List String) :
    EXCLUSIVE_PLOTS.countP
      (fun e => (events.foldl userToggle startupState).isplotted e) ≤ 1 ∧
    ∀ e ∈ EXCLUSIVE_PLOTS,
      (events.foldl userToggle startupState).isplotted e = true →
      ∀ p ∈ CHKBOX_LABELS, p ∉ EXCLUSIVE_PLOTS →
        (events.foldl userToggle startupState).isplotted p = false := by
  have hInv : InvP (events.foldl userToggle startupState) := by
    refine foldl_preserve InvP userToggle events startupState invp_startupState ?_
    intro b x _ hb
    exact userToggle_invp b x hb
  have hnp : ∀ e, e ∉ PLOT_KEYS →
      (events.foldl userToggle startupState).isplotted e = false := by
    intro e he
    by_cases hq : (events.foldl userToggle startupState).isplotted e = true
    · exact absurd (hInv.2.1 e hq) he
    · simpa using hq
  have h2 := hnp "fgrp_hz" (by decide)
  have h3 := hnp "grG1hz_X_t" (by decide)
  have h4 := hnp "gwO3hz_X_t" (by decide)
  constructor
  · cases hq : (events.foldl userToggle startupState).isplotted "all" with
    | false => simp [EXCLUSIVE_PLOTS, List.countP_cons, h2, h3, h4, hq]
    | true => simp [EXCLUSIVE_PLOTS, List.countP_cons, h2, h3, h4, hq]
  · intro e heE he p hpC hpE
    have heall : e = "all" := by
      fin_cases heE
      · rfl
      · exact absurd he (by rw [h2]; simp)
      · exact absurd he (by rw [h3]; simp)
      · exact absurd he (by rw [h4]; simp)
    subst heall
    have hpall : p ≠ "all" :=
      fun hh => hpE (hh ▸ (by decide : "all" ∈ EXCLUSIVE_PLOTS))
    exact hInv.2.2 he p hpall

theorem c3_witness :
    ("all" ∈ EXCLUSIVE_PLOTS ∧ "fgrp5" ∈ CHKBOX_LABELS ∧
      "fgrp5" ∉ EXCLUSIVE_PLOTS ∧
      (List.foldl userToggle startupState []).isplotted "all" = true) ∧
    EXCLUSIVE_PLOTS.countP
      (fun e => (List.foldl userToggle startupState []).isplotted e) ≤ 1 ∧
    (List.foldl userToggle startupState []).isplotted "fgrp5" = false := by
  have h := c3_exclusive_invariant []
  exact ⟨⟨by decide, by decide, by decide, by decide⟩, h.1,
    h.2 "all" (by decide) (by decide) "fgrp5" (by decide) (by decide)⟩
end PlotJobs
